import Mathlib

/-! Verification of picam_ros2: capture session and request-completion pipeline.

A shallow embedding of `src/camera_interface.cpp` (class `CameraInterface`).

Conventions of the embedding
* `uint32_t` / `uint` values are natural numbers below `2 ^ 32`; every
  operation that can wrap is reduced modulo `2 ^ 32` explicitly.
* `long`, `std::time_t` and the counters of the session are integers; the
  clock readings the code obtains (`high_resolution_clock::now()`,
  `std::time(nullptr)`) are inputs of the model.
* The camera, the DMA heap, the parameter store and the encoder are external
  capabilities: what they answer is an input (`CameraEnv`, `ParamStore`,
  `EncoderModel`), what the code asks of them is recorded as a trace of
  `Event`s in program order.
* A C++ exception leaves the function at once; the state reached and the
  trace emitted so far are kept in the `Outcome`.
* Output to `std::cout` is not modelled, except for the count of printed lines
  (`lines_printed`); the messages `start()` writes to `std::cerr` are events.
* Floating-point parameters are carried as rationals and never computed with,
  apart from the conversion of the log interval to nanoseconds.
-/

namespace Picam

/-! ## 32-bit unsigned arithmetic -/

/-- Number of values of a `uint32_t`. -/
def U32 : Nat := 2 ^ 32

/-- Wrapping `uint32_t` addition. -/
def addU32 (a b : Nat) : Nat := (a + b) % U32

/-- Wrapping `uint32_t` multiplication. -/
def mulU32 (a b : Nat) : Nat := (a * b) % U32

/-- Bitwise complement of a `uint32_t`. -/
def notU32 (a : Nat) : Nat := (U32 - 1) ^^^ (a % U32)

/-- Function `uint32_t roundUp4096(uint32_t x)`:
`constexpr uint32_t mask = 4096 - 1; return (x + mask) & ~mask;` -/
def roundUp4096 (x : Nat) : Nat :=
  let mask : Nat := 4096 - 1
  (addU32 x mask) &&& (notU32 mask)

/-! ## Plane views -/

/-- One entry of `mapped_capture_buffers[buffer]` together with the matching
entry of `mapped_capture_buffer_strides[buffer]`: the `AVBufferRef` created
over `memory + offset` with size `length`, and the plane stride. -/
structure PlaneView where
  offset : Nat
  length : Nat
  stride : Nat
  deriving DecidableEq, Repr

/-- Body of the loop `for (uint j = 0; j < 3; j++)` of `start()`.  The loop
state is the list of planes pushed so far and `plane_offset`. -/
def planeStep (stride height : Nat) (acc : List PlaneView × Nat) (j : Nat) :
    List PlaneView × Nat :=
  let plane_stride := if j = 0 then stride else stride / 2
  let plane_length := mulU32 plane_stride (if j = 0 then height else height / 2)
  (acc.1 ++ [{ offset := acc.2, length := plane_length, stride := plane_stride }],
   addU32 acc.2 plane_length)

/-- The three planes `start()` derives for one buffer
(`uint plane_offset = 0; for (uint j = 0; j < 3; j++) ...`). -/
def derivePlanes (stride height : Nat) : List PlaneView :=
  ((List.range 3).foldl (planeStep stride height) ([], 0)).1

/-- Sum of the lengths of a list of planes (exact, not wrapped). -/
def planeLengthSum (ps : List PlaneView) : Nat :=
  (ps.map PlaneView.length).sum

/-! ## Values exchanged with the external capabilities -/

/-- Value of `NS_TO_SEC`.
Modelled from the spec: `picam_ros2/const.hpp` is absent; the constant is the
number of nanoseconds in a second (the timestamp is split into seconds and
nanoseconds from a nanosecond count). -/
def NS_TO_SEC : Nat := 1000000000

/-- The libcamera controls that `start()` writes into a request. -/
inductive ControlId
  | AeEnable
  | AeMeteringMode
  | AeConstraintMode
  | AeExposureMode
  | ExposureTime
  | AnalogueGain
  | AwbEnable
  | ColourGains
  | Brightness
  | Contrast
  deriving DecidableEq, Repr

/-- Value of a control.  Floating-point values are carried as rationals; no
floating-point arithmetic is performed on them by the code. -/
inductive ControlValue
  | bool (b : Bool)
  | int (i : Int)
  | float (q : Rat)
  | floats (qs : List Rat)
  deriving DecidableEq

/-- Type `libcamera::ControlList`: at most one value per control id. -/
abbrev ControlList := List (ControlId × ControlValue)

/-- Method `ControlList::set(id, value)`: replaces the value of an id already present,
adds the id otherwise. -/
def ControlList.set (l : ControlList) (k : ControlId) (v : ControlValue) : ControlList :=
  if l.any (fun e => e.1 = k) then l.map (fun e => if e.1 = k then (k, v) else e)
  else l ++ [(k, v)]

/-- Method `ControlList::get(id)`. -/
def ControlList.get (l : ControlList) (k : ControlId) : Option ControlValue :=
  l.lookup k

/-- Method `ControlList::contains(id)`. -/
def ControlList.contains (l : ControlList) (k : ControlId) : Bool :=
  (l.lookup k).isSome

/-- Type `libcamera::FrameBuffer` as built by `start()`: one plane over the whole
DMA allocation.  `id` stands for the address of the object, which the code uses
as the key of its lookup tables. -/
structure FrameBuffer where
  id : Nat
  fd : Nat
  offset : Nat
  length : Nat
  deriving DecidableEq, Repr

/-- Type `libcamera::Request` as built by `start()`: its control list and its
stream-to-buffer map.  `id` stands for the address of the object. -/
structure Request where
  id : Nat
  controls : ControlList
  buffers : List (Nat × FrameBuffer)
  deriving DecidableEq

/-- An `AVBufferRef` created by `av_buffer_create(memory + plane_offset,
plane_length, ...)`. -/
structure AVBuffer where
  memory : Nat
  offset : Nat
  size : Nat
  deriving DecidableEq, Repr

/-- Type `libcamera::StreamConfiguration`, the fields the code reads or writes;
`stream` is what `cfg.stream()` returns. -/
structure StreamConfiguration where
  width : Nat
  height : Nat
  bufferCount : Nat
  stride : Nat
  frameSize : Nat
  stream : Nat
  deriving DecidableEq, Repr

/-- Type `libcamera::CameraConfiguration`: the stream configurations generated
for the requested roles; `first` is `config->at(0)`. -/
structure CameraConfiguration where
  first : StreamConfiguration
  rest : List StreamConfiguration
  deriving DecidableEq, Repr

/-- The stream configurations in iteration order (`for (cfg : *config)`). -/
def CameraConfiguration.toList (c : CameraConfiguration) : List StreamConfiguration :=
  c.first :: c.rest

/-- Type `CameraConfiguration::Status`. -/
inductive ConfigStatus
  | Valid
  | Adjusted
  | Invalid
  deriving DecidableEq, Repr

/-- The camera and the DMA heap, as far as `start()` consults them.  Each
field is the answer the capability gives to the corresponding call. -/
structure CameraEnv where
  /-- Value of `properties::Location`, when the camera has the property. -/
  location : Option Int
  /-- Value of `properties::Model`, when the camera has the property. -/
  model : Option String
  /-- Value of `properties::Rotation`, when the camera has the property. -/
  rotation : Option Int
  /-- Answer of `generateConfiguration({ StreamRole::VideoRecording })`. -/
  generateConfiguration : CameraConfiguration
  /-- Answer of `config->validate()`: the status and the configuration as the
  camera adjusted it (stride and frame size filled in). -/
  validate : CameraConfiguration → ConfigStatus × CameraConfiguration
  /-- Answer of `dma_heap.alloc(name, size)` for buffer `i` of stream number
  `k`: the descriptor, or `none` when the descriptor is not valid. -/
  alloc : (k i size : Nat) → Option Nat
  /-- Answer of `mmap(NULL, size, PROT_READ, MAP_SHARED, fd, 0)`. -/
  mmap : (fd size : Nat) → Nat
  /-- Whether `camera->createRequest()` yields a request, for request `i` of
  stream number `k`. -/
  createRequest : (k i : Nat) → Bool
  /-- Answer of `request->addBuffer(stream, buffer)` for request `i` of stream
  number `k`. -/
  addBuffer : (k i : Nat) → Int

/-- The node's parameter store as `readConfig()` and `start()` see it: the
overrides present for the declared parameters, by type, and the global
parameters that are only read. -/
structure ParamStore where
  bools : String → Option Bool
  ints : String → Option Int
  doubles : String → Option Rat
  doubleArrays : String → Option (List Rat)
  strings : String → Option String
  log_scroll : Bool
  log_message_every_sec : Rat
  topic_prefix : String

/-! ## The session -/

/-- Message `ffmpeg_image_transport_msgs::msg::FFMPEGPacket` held in
`outFrameMsg`. -/
structure OutFrameMsg where
  frame_id : String
  stamp_sec : Int
  stamp_nanosec : Nat
  width : Nat
  height : Nat
  encoding : String
  is_bigendian : Bool
  pts : Nat
  flags : Nat
  data : List Nat
  deriving DecidableEq

/-- Arguments of one call of `encoder->encode(plane_buffers, plane_strides,
base_fd, buffer_size, &frameIdx, timestamp_ns, log)`; `frameIdx` is the value
the cursor has when the call is made. -/
structure EncodeArgs where
  planes : List AVBuffer
  strides : List Nat
  fd : Nat
  size : Nat
  frameIdx : Int
  timestamp_ns : Int
  log : Bool
  deriving DecidableEq

/-- Arguments of one call of `publish(data, size, keyframe, pts, timestamp_ns,
log)`; `data` holds the `size` bytes that are copied. -/
structure PublishArgs where
  data : List Nat
  keyframe : Bool
  pts : Nat
  timestamp_ns : Int
  log : Bool
  deriving DecidableEq

/-- What one call of `encode` does to the session: the value it leaves in the
frame-index cursor and the calls of `publish` it makes. -/
structure EncodeResult where
  frameIdx : Int
  published : List PublishArgs

/-- The encoder behind `this->encoder`.
Modelled from the spec: the encoder classes (`EncoderHW`, `EncoderLibAV`) are
absent; an encoder consumes the planes, advances the in/out frame index and
calls back `publish` zero or more times.  Its answer may depend on the calls
made before (first argument, oldest first). -/
abbrev EncoderModel := List EncodeArgs → EncodeArgs → EncodeResult

/-- Everything the code asks of an external capability, in program order. -/
inductive Event
  | acquire
  | generateConfiguration
  | validate
  | configure
  | dmaAlloc (name : String) (size : Nat)
  | mmap (fd size : Nat)
  | createRequest
  | addBuffer (stream buffer : Nat)
  | cerr (msg : String)
  | createPublisher (topic : String)
  | createEncoder (hw : Bool)
  | connectRequestCompleted
  | cameraStart
  | queueRequest (request : Nat)
  | syncStart (fd : Nat)
  | syncEnd (fd : Nat)
  | encode (args : EncodeArgs)
  | publish (msg : OutFrameMsg)
  | reuse (request : Nat)
  deriving DecidableEq

/-- The data members of `CameraInterface` that the modelled functions read or
write. -/
structure Session where
  running : Bool
  location : Int
  model : String
  rotation : Int
  hw_encoder : Bool
  width : Nat
  height : Nat
  bit_rate : Int
  ae_enable : Bool
  exposure_time : Nat
  ae_metering_mode : Nat
  ae_exposure_mode : Nat
  ae_constraint_mode : Nat
  analog_gain : Rat
  awb_enable : Bool
  color_gains : List Rat
  brightness : Rat
  contrast : Rat
  compression : Nat
  fps : Nat
  buffer_count : Nat
  frame_id : String
  log_scrolls : Bool
  log_message_every_ns : Int
  stride : Nat
  buffer_size : Nat
  mapped_capture_buffers : List (Nat × List AVBuffer)
  mapped_capture_buffer_strides : List (Nat × List Nat)
  capture_frame_buffers : List (Nat × List FrameBuffer)
  capture_requests : List Request
  publisher : Option String
  outFrameMsg : OutFrameMsg
  encoder : Option Bool
  encoder_calls : List EncodeArgs
  last_log : Int
  frame_count : Int
  last_fps : Int
  last_fps_time : Int
  timestamp_ns_base : Int
  frameIdx : Int
  lines_printed : Int
  deriving DecidableEq

/-- How a modelled function was left. -/
inductive Result
  | returned
  | threw (msg : String)
  deriving DecidableEq, Repr

/-- Outcome of a call: the session afterwards, the requests made to the
external capabilities, and how the function was left. -/
structure Outcome where
  state : Session
  trace : List Event
  result : Result
  deriving DecidableEq

/-- Entry of a `std::map` with vector values; a key without entry has the empty
vector (what `operator[]` yields for it). -/
def lookupVec {α : Type} (m : List (Nat × List α)) (k : Nat) : List α :=
  (m.lookup k).getD []

/-- Statement `m[k].push_back(...)` repeated for every element of `vs`. -/
def pushBackAll {α : Type} (m : List (Nat × List α)) (k : Nat) (vs : List α) :
    List (Nat × List α) :=
  if m.any (fun e => e.1 = k) then m.map (fun e => if e.1 = k then (k, e.2 ++ vs) else e)
  else m ++ [(k, vs)]

/-- Statement `m[k] = std::move(v)`. -/
def assignVec {α : Type} (m : List (Nat × List α)) (k : Nat) (v : List α) :
    List (Nat × List α) :=
  if m.any (fun e => e.1 = k) then m.map (fun e => if e.1 = k then (k, v) else e)
  else m ++ [(k, v)]

/-- State carried through a loop of the code: the session, the trace so far,
and how the enclosing function was left if the loop body left it (`none`
while the loop is still running or ended normally). -/
structure Carry where
  state : Session
  trace : List Event
  exit : Option Result

/-! ## readConfig -/

/-- Conversion `(uint) x` of a 64-bit parameter value. -/
def toUint (v : Int) : Nat := (v % (U32 : Int)).toNat

/-- Conversion `(long) x` of a floating-point value: truncation toward zero.
The rounding of the floating-point product itself is not modelled. -/
def truncToLong (q : Rat) : Int := if 0 ≤ q then Rat.floor q else Rat.ceil q

/-- Prefix of the per-camera parameter names,
`fmt::format("/camera_.", location)` with the location filled in. -/
def configPrefix (location : Int) : String :=
  "/camera_" ++ toString location ++ "."

/-- Method `CameraInterface::readConfig()`: every parameter is declared with
its default and then read, so a parameter without override has the declared
default. -/
def readConfig (store : ParamStore) (s : Session) : Session :=
  let pre := configPrefix s.location
  { s with
    hw_encoder := (store.bools (pre ++ "hw_encoder")).getD true
    width := toUint ((store.ints (pre ++ "width")).getD 1920)
    height := toUint ((store.ints (pre ++ "height")).getD 1080)
    bit_rate := (store.ints (pre ++ "bitrate")).getD 4000000
    ae_enable := (store.bools (pre ++ "ae_enable")).getD false
    exposure_time := toUint ((store.ints (pre ++ "exposure_time_ns")).getD 10000)
    ae_metering_mode := toUint ((store.ints (pre ++ "ae_metering_mode")).getD 0)
    ae_exposure_mode := toUint ((store.ints (pre ++ "ae_exposure_mode")).getD 0)
    ae_constraint_mode := toUint ((store.ints (pre ++ "ae_constraint_mode")).getD 0)
    analog_gain := (store.doubles (pre ++ "analog_gain")).getD (3 / 2)
    awb_enable := (store.bools (pre ++ "awb_enable")).getD true
    color_gains := (store.doubleArrays (pre ++ "color_gains")).getD [2, 9 / 5]
    brightness := (store.doubles (pre ++ "brightness")).getD (1 / 5)
    contrast := (store.doubles (pre ++ "contrast")).getD (6 / 5)
    compression := toUint ((store.ints (pre ++ "compression")).getD 35)
    fps := toUint ((store.ints (pre ++ "framerate")).getD 30)
    buffer_count := toUint ((store.ints (pre ++ "buffer_count")).getD 4)
    frame_id := (store.strings (pre ++ "frame_id")).getD "picam"
    log_scrolls := store.log_scroll
    log_message_every_ns := truncToLong (store.log_message_every_sec * (NS_TO_SEC : Rat)) }

/-! ## start -/

/-- The controls `start()` sets on every request, in program order
(lines 148-164). -/
def requestControls (s : Session) : ControlList :=
  let c : ControlList := []
  let c := c.set .AeEnable (.bool s.ae_enable)
  let c :=
    if s.ae_enable then
      ((c.set .AeMeteringMode (.int s.ae_metering_mode)).set
        .AeConstraintMode (.int s.ae_constraint_mode)).set
        .AeExposureMode (.int s.ae_exposure_mode)
    else
      c.set .ExposureTime (.int s.exposure_time)
  let c := c.set .AnalogueGain (.float s.analog_gain)
  let c := c.set .AwbEnable (.bool s.awb_enable)
  let c := c.set .ColourGains (.floats [s.color_gains.getD 0 0, s.color_gains.getD 1 0])
  let c := c.set .Brightness (.float s.brightness)
  c.set .Contrast (.float s.contrast)

/-- Address of a newly created object used as a table key: taken to differ
from every key already present in the table. -/
def freshKey {α : Type} (m : List (Nat × α)) : Nat :=
  (m.map Prod.fst).foldl max 0 + 1

/-- Loop `for (uint i = 0; i < cfg.bufferCount; i++)` of `start()` for stream
number `k`: `todo` iterations remain, `i` is the loop counter and `buffers`
the local vector of frame buffers. -/
def allocBuffers (env : CameraEnv) (k : Nat) :
    (todo i : Nat) → List FrameBuffer → Session → List Event → List FrameBuffer × Carry
  | 0, _, buffers, s, tr => (buffers, ⟨s, tr, none⟩)
  | todo + 1, i, buffers, s, tr =>
    let tr := tr ++ [.dmaAlloc ("pica-ros2-" ++ toString i) s.buffer_size]
    match env.alloc k i s.buffer_size with
    | none =>
      (buffers, ⟨s, tr, some (.threw "Failed to allocate capture buffers for stream")⟩)
    | some fd =>
      let fb : FrameBuffer :=
        { id := freshKey s.mapped_capture_buffers, fd := fd, offset := 0,
          length := s.buffer_size }
      let memory := env.mmap fd s.buffer_size
      let planes := derivePlanes s.stride s.height
      let s :=
        { s with
          mapped_capture_buffers :=
            pushBackAll s.mapped_capture_buffers fb.id
              (planes.map (fun p => ⟨memory, p.offset, p.length⟩))
          mapped_capture_buffer_strides :=
            pushBackAll s.mapped_capture_buffer_strides fb.id
              (planes.map PlaneView.stride) }
      allocBuffers env k todo (i + 1) (buffers ++ [fb]) s (tr ++ [.mmap fd s.buffer_size])

/-- Loop `for (i = 0; i < capture_frame_buffers[stream].size(); ++i)` of
`start()` for stream number `k`: the buffers still to be visited, in order, and
the loop counter `i`. -/
def makeRequests (env : CameraEnv) (k stream : Nat) :
    List FrameBuffer → (i : Nat) → Session → List Event → Carry
  | [], _, s, tr => ⟨s, tr, none⟩
  | buffer :: rest, i, s, tr =>
    let tr := tr ++ [.createRequest]
    if env.createRequest k i = false then
      ⟨s, tr ++ [.cerr "Can't create request"], some .returned⟩
    else
      let tr := tr ++ [.addBuffer stream buffer.id]
      if env.addBuffer k i < 0 then
        ⟨s, tr ++ [.cerr "Can't set buffer for request"], some .returned⟩
      else
        let request : Request :=
          { id := s.capture_requests.length, controls := requestControls s,
            buffers := [(stream, buffer)] }
        makeRequests env k stream rest (i + 1)
          { s with capture_requests := s.capture_requests ++ [request] } tr

/-- Loop `for (StreamConfiguration &cfg : *config)` of `start()`; `k` numbers
the stream configurations. -/
def streamLoop (env : CameraEnv) :
    List StreamConfiguration → (k : Nat) → Session → List Event → Carry
  | [], _, s, tr => ⟨s, tr, none⟩
  | cfg :: rest, k, s, tr =>
    let s := { s with buffer_size := roundUp4096 cfg.frameSize }
    let a := allocBuffers env k cfg.bufferCount 0 [] s tr
    match a.2.exit with
    | some r => ⟨a.2.state, a.2.trace, some r⟩
    | none =>
      let s := a.2.state
      let s :=
        { s with capture_frame_buffers := assignVec s.capture_frame_buffers cfg.stream a.1 }
      let m := makeRequests env k cfg.stream (lookupVec s.capture_frame_buffers cfg.stream) 0
        s a.2.trace
      match m.exit with
      | some r => ⟨m.state, m.trace, some r⟩
      | none => streamLoop env rest (k + 1) m.state m.trace

/-- Lines 29-47 of `start()`: the running flag is set, the camera is acquired,
its identity properties are read where present, and the configuration is
read. -/
def prepare (env : CameraEnv) (store : ParamStore) (s : Session) : Session :=
  let s := { s with running := true }
  let s :=
    { s with
      location := env.location.getD s.location
      model := env.model.getD s.model
      rotation := env.rotation.getD s.rotation }
  readConfig store s

/-- Lines 51-57 of `start()`: the generated configuration with the width, height
and buffer count of its first stream overridden. -/
def requestedConfiguration (env : CameraEnv) (s : Session) : CameraConfiguration :=
  { env.generateConfiguration with
    first :=
      { env.generateConfiguration.first with
        width := s.width, height := s.height, bufferCount := s.buffer_count } }

/-- Lines 177-227 of `start()`: the publisher, the output message and the encoder
are set up, the completion callback is connected, the camera is started and
every request of `capture_requests` is queued. -/
def finishStart (store : ParamStore) (s : Session) (tr : List Event) : Outcome :=
  let topic := store.topic_prefix ++ toString s.location ++ "/" ++ s.model
  let s :=
    { s with
      publisher := some topic
      outFrameMsg :=
        { s.outFrameMsg with
          frame_id := s.frame_id, stamp_sec := 0, stamp_nanosec := 0,
          width := s.width, height := s.height, encoding := "h.264",
          is_bigendian := false }
      encoder := some s.hw_encoder
      encoder_calls := [] }
  ⟨s,
    tr ++ [.createPublisher topic, .createEncoder s.hw_encoder,
      .connectRequestCompleted, .cameraStart]
      ++ s.capture_requests.map (fun r => .queueRequest r.id),
    .returned⟩

/-- Method `CameraInterface::start()`. -/
def start (env : CameraEnv) (store : ParamStore) (s : Session) : Outcome :=
  if s.running then ⟨s, [], .returned⟩
  else
    let s := prepare env store s
    let v := env.validate (requestedConfiguration env s)
    let tr : List Event := [.acquire, .generateConfiguration, .validate]
    if v.1 = .Invalid then
      ⟨s, tr, .threw "Failed to validate stream configurations"⟩
    else
      let config := v.2
      let s := { s with stride := config.first.stride }
      let c := streamLoop env config.toList 0 s (tr ++ [.configure])
      match c.exit with
      | some r => ⟨c.state, c.trace, r⟩
      | none => finishStart store c.state c.trace

/-- Method `CameraInterface::stop()`. -/
def stop (s : Session) : Outcome :=
  if s.running = false then ⟨s, [], .returned⟩
  else ⟨{ s with running := false }, [], .returned⟩

/-! ## publish -/

/-- Conversion of a `long` to `uint64_t` (the parameter type of
`getCurrentStamp`). -/
def toU64 (v : Int) : Nat := (v % ((2 : Int) ^ 64)).toNat

/-- Conversion `static_cast<int32_t>` of an unsigned value. -/
def toInt32 (n : Nat) : Int :=
  if n % U32 < 2 ^ 31 then ((n % U32 : Nat) : Int) else ((n % U32 : Nat) : Int) - (U32 : Int)

/-- Function `getCurrentStamp(stamp, timestamp_ns)`: the pair
(`stamp->sec`, `stamp->nanosec`). -/
def getCurrentStamp (timestamp_ns : Nat) : Int × Nat :=
  (toInt32 (timestamp_ns / NS_TO_SEC), (timestamp_ns % NS_TO_SEC) % U32)

/-- Method `CameraInterface::publish(data, size, keyframe, pts, timestamp_ns,
log)`: the session afterwards and the message handed to the publisher. -/
def publish (s : Session) (a : PublishArgs) : Session × List Event :=
  let stamp := getCurrentStamp (toU64 a.timestamp_ns)
  let msg : OutFrameMsg :=
    { s.outFrameMsg with
      stamp_sec := stamp.1, stamp_nanosec := stamp.2, pts := a.pts,
      flags := if a.keyframe then 1 else 0, data := a.data }
  let s := { s with outFrameMsg := msg }
  let s := if a.log then { s with lines_printed := s.lines_printed + 1 } else s
  (s, [.publish msg])

/-- The calls of `publish` one call of `encode` makes, in order. -/
def publishAll : List PublishArgs → Session → List Event → Session × List Event
  | [], s, tr => (s, tr)
  | a :: rest, s, tr =>
    let r := publish s a
    publishAll rest r.1 (tr ++ r.2)

/-! ## captureRequestComplete -/

/-- Type `Request::Status`. -/
inductive RequestStatus
  | RequestPending
  | RequestComplete
  | RequestCancelled
  deriving DecidableEq, Repr

/-- One entry of `request->buffers()` of a completed request, with what the
environment answers while the entry is processed: the frame metadata, the
return values of the two `DMA_BUF_IOCTL_SYNC` calls and the reading of
`std::time(nullptr)`. -/
structure CompletedBuffer where
  stream : Nat
  buffer : FrameBuffer
  sequence : Nat
  timestamp : Nat
  ret_start : Int
  current_time : Int
  ret_end : Int
  deriving DecidableEq

/-- A call of the completion callback: the request (`id`, `status()`,
`buffers()` in iteration order) and the reading of
`high_resolution_clock::now()` in nanoseconds. -/
structure Completion where
  request : Nat
  status : RequestStatus
  ns_since_epoch : Int
  buffers : List CompletedBuffer
  deriving DecidableEq

/-- The FPS accounting of lines 266-272. -/
def fpsUpdate (s : Session) (current_time : Int) : Session :=
  let s :=
    if current_time - s.last_fps_time ≥ 1 then
      { s with last_fps := s.frame_count, last_fps_time := current_time, frame_count := 0 }
    else s
  { s with frame_count := s.frame_count + 1 }

/-- Body of the loop `for (auto p : request_buffers)` of
`captureRequestComplete` for one entry. -/
def processBuffer (enc : EncoderModel) (ns_since_epoch : Int) (log : Bool) (s : Session)
    (tr : List Event) (p : CompletedBuffer) : Carry :=
  let base_fd := p.buffer.fd
  let tr := tr ++ [.syncStart base_fd]
  if p.ret_start ≠ 0 then
    ⟨s, tr, some (.threw "Failed to sync/start dma buf on queue request")⟩
  else
    let s := fpsUpdate s p.current_time
    let s := if log then { s with lines_printed := 0 } else s
    let s := if log then { s with lines_printed := s.lines_printed + 1 } else s
    let plane_buffers := lookupVec s.mapped_capture_buffers p.buffer.id
    let plane_strides := lookupVec s.mapped_capture_buffer_strides p.buffer.id
    let tr := tr ++ [.syncEnd base_fd]
    if p.ret_end ≠ 0 then
      ⟨s, tr, some (.threw "Failed to sync/end dma buf on queue request")⟩
    else
      let timestamp_ns := ns_since_epoch
      let s :=
        if s.timestamp_ns_base = 0 then { s with timestamp_ns_base := timestamp_ns } else s
      let timestamp_ns := timestamp_ns - s.timestamp_ns_base
      let s := if log then { s with lines_printed := s.lines_printed + 1 } else s
      let args : EncodeArgs :=
        { planes := plane_buffers, strides := plane_strides, fd := base_fd,
          size := s.buffer_size, frameIdx := s.frameIdx, timestamp_ns := timestamp_ns,
          log := log }
      let r := enc s.encoder_calls args
      let s := { s with frameIdx := r.frameIdx, encoder_calls := s.encoder_calls ++ [args] }
      let q := publishAll r.published s (tr ++ [.encode args])
      ⟨q.1, q.2, none⟩

/-- Loop `for (auto p : request_buffers)` of `captureRequestComplete`. -/
def processBuffers (enc : EncoderModel) (ns_since_epoch : Int) (log : Bool) :
    List CompletedBuffer → Session → List Event → Carry
  | [], s, tr => ⟨s, tr, none⟩
  | p :: rest, s, tr =>
    let c := processBuffer enc ns_since_epoch log s tr p
    match c.exit with
    | some r => ⟨c.state, c.trace, some r⟩
    | none => processBuffers enc ns_since_epoch log rest c.state c.trace

/-- Method `CameraInterface::captureRequestComplete(request)`. -/
def captureRequestComplete (enc : EncoderModel) (s : Session) (c : Completion) : Outcome :=
  if c.status = .RequestCancelled then ⟨s, [], .returned⟩
  else
    let log : Bool :=
      decide (s.log_message_every_ns > -1 ∧
        c.ns_since_epoch - s.last_log ≥ s.log_message_every_ns)
    let s := if log then { s with last_log := c.ns_since_epoch } else s
    let l := processBuffers enc c.ns_since_epoch log c.buffers s []
    match l.exit with
    | some r => ⟨l.state, l.trace, r⟩
    | none =>
      if l.state.running = false then ⟨l.state, l.trace, .returned⟩
      else ⟨l.state, l.trace ++ [.reuse c.request, .queueRequest c.request], .returned⟩

/-- A sequence of calls of the completion callback, oldest first.  A call that
throws ends the sequence (the exception is not caught). -/
def runCompletions (enc : EncoderModel) : List Completion → Session → List Event → Outcome
  | [], s, tr => ⟨s, tr, .returned⟩
  | c :: rest, s, tr =>
    let o := captureRequestComplete enc s c
    match o.result with
    | .threw msg => ⟨o.state, tr ++ o.trace, .threw msg⟩
    | .returned => runCompletions enc rest o.state (tr ++ o.trace)

/-! ## Sample inputs -/

/-! Concrete sessions and capabilities on which the theorems below are
instantiated. -/

/-- A session on which `start()` has not been called.
Modelled from the spec: the class declaration (`camera_interface.hpp`) is
absent; the session starts stopped, with empty tables, zero counters and an
unset timestamp base. -/
def idleSession : Session :=
  { running := false, location := 0, model := "", rotation := 0, hw_encoder := true,
    width := 0, height := 0, bit_rate := 0, ae_enable := false, exposure_time := 0,
    ae_metering_mode := 0, ae_exposure_mode := 0, ae_constraint_mode := 0,
    analog_gain := 0, awb_enable := false, color_gains := [], brightness := 0,
    contrast := 0, compression := 0, fps := 0, buffer_count := 0, frame_id := "",
    log_scrolls := false, log_message_every_ns := 0, stride := 0, buffer_size := 0,
    mapped_capture_buffers := [], mapped_capture_buffer_strides := [],
    capture_frame_buffers := [], capture_requests := [], publisher := none,
    outFrameMsg :=
      { frame_id := "", stamp_sec := 0, stamp_nanosec := 0, width := 0, height := 0,
        encoding := "", is_bigendian := false, pts := 0, flags := 0, data := [] },
    encoder := none, encoder_calls := [], last_log := 0, frame_count := 0, last_fps := 0,
    last_fps_time := 0, timestamp_ns_base := 0, frameIdx := 0, lines_printed := 0 }

/-- A parameter store without overrides; logging is throttled to one message
per second and scrolls. -/
def emptyStore : ParamStore :=
  { bools := fun _ => none, ints := fun _ => none, doubles := fun _ => none,
    doubleArrays := fun _ => none, strings := fun _ => none, log_scroll := true,
    log_message_every_sec := 1, topic_prefix := "/picam_ros2/camera_" }

/-- The answer of a camera that accepts the requested size unchanged: 4:2:0
layout, stride equal to the width. -/
def acceptConfiguration (c : CameraConfiguration) : ConfigStatus × CameraConfiguration :=
  (.Valid,
    { c with
      first :=
        { c.first with
          stride := c.first.width
          frameSize := c.first.width * c.first.height * 3 / 2 } })

/-- A camera with one video stream on which every call succeeds. -/
def sampleEnv : CameraEnv :=
  { location := some 0, model := some "imx708", rotation := some 0,
    generateConfiguration :=
      { first :=
          { width := 800, height := 600, bufferCount := 4, stride := 0, frameSize := 0,
            stream := 0 },
        rest := [] },
    validate := acceptConfiguration,
    alloc := fun _ i _ => some (10 + i),
    mmap := fun fd _ => 4096 * fd,
    createRequest := fun _ _ => true,
    addBuffer := fun _ _ => 0 }

/-- An encoder that emits nothing and advances the frame index modulo 30. -/
def idleEncoder : EncoderModel :=
  fun _ a => { frameIdx := a.frameIdx % 30 + 1, published := [] }

/-- A completion of a request as `start()` builds it (one buffer), not cancelled,
for which both cache synchronisations succeed and `std::time` reads `t`. -/
def Completion.okWith (c : Completion) (t : Int) : Prop :=
  c.status ≠ .RequestCancelled ∧
    ∃ b, c.buffers = [b] ∧ b.ret_start = 0 ∧ b.ret_end = 0 ∧ b.current_time = t

/-- The timestamps passed to the encoder, in call order. -/
def encodeTimestamps (tr : List Event) : List Int :=
  tr.filterMap (fun e => match e with
    | .encode a => some a.timestamp_ns
    | _ => none)



/-- A served completion of request `request` with one buffer: the clock reads
`ns` nanoseconds, `std::time` reads `time` seconds, the frame metadata carries
the timestamp `hw`. -/
def frameAt (request : Nat) (ns time : Int) (hw : Nat) : Completion :=
  { request := request, status := .RequestComplete, ns_since_epoch := ns,
    buffers :=
      [{ stream := 0, buffer := ⟨request + 1, 10 + request, 0, 3112960⟩, sequence := 0,
         timestamp := hw, ret_start := 0, current_time := time, ret_end := 0 }] }

/-- Events the buffer and request loops of `start()` emit. -/
def Event.isSetup : Event → Bool
  | .dmaAlloc _ _ => true
  | .mmap _ _ => true
  | .createRequest => true
  | .addBuffer _ _ => true
  | .cerr _ => true
  | _ => false

/-- Number of calls of `dma_heap.alloc` in a trace. -/
def countAllocs (tr : List Event) : Nat :=
  (tr.filter (fun e => match e with
    | .dmaAlloc _ _ => true
    | _ => false)).length

/-- Number of calls of `camera->createRequest()` in a trace. -/
def countCreateRequests (tr : List Event) : Nat :=
  (tr.filter (fun e => match e with
    | .createRequest => true
    | _ => false)).length

/-- A parameter store whose only override sets the height of camera 0 to 2160. -/
def tallStore : ParamStore :=
  { emptyStore with ints := fun k => if k = "/camera_0.height" then some 2160 else none }

/-- A camera that adjusts every requested size to 1920x1080 (4:2:0, stride
1920, frame size 3110400) and reports the configuration as adjusted. -/
def adjustingEnv : CameraEnv :=
  { sampleEnv with
    validate := fun c =>
      (.Adjusted,
        { c with
          first :=
            { c.first with
              width := 1920, height := 1080, stride := 1920, frameSize := 3110400 } }) }

/-- The calls of the completion callback that bear on one buffer or on the
request, without their payload: the two cache synchronisations and the call of
the encoder (by descriptor), the reuse and the requeue (by request). -/
inductive Step
  | syncStart (fd : Nat)
  | syncEnd (fd : Nat)
  | encode (fd : Nat)
  | reuse (request : Nat)
  | queueRequest (request : Nat)
  deriving DecidableEq, Repr

/-- The step an event stands for, if any. -/
def Event.step : Event → Option Step
  | .syncStart fd => some (.syncStart fd)
  | .syncEnd fd => some (.syncEnd fd)
  | .encode a => some (.encode a.fd)
  | .reuse r => some (.reuse r)
  | .queueRequest r => some (.queueRequest r)
  | _ => none

/-- The steps of a trace, in order. -/
def steps (tr : List Event) : List Step :=
  tr.filterMap Event.step

/-- The descriptors the encoder was called with, in call order. -/
def encodedFds (tr : List Event) : List Nat :=
  (steps tr).filterMap (fun st => match st with
    | .encode fd => some fd
    | _ => none)

/-- Whether both cache synchronisations succeed for every buffer. -/
def allSynced (bs : List CompletedBuffer) : Bool :=
  bs.all (fun b => decide (b.ret_start = 0) && decide (b.ret_end = 0))

/-- The steps the pipeline description prescribes for the buffers of a request:
per buffer the begin synchronisation, the end synchronisation and then the
encoder, and nothing after the first synchronisation that fails. -/
def expectedSteps : List CompletedBuffer → List Step
  | [] => []
  | b :: rest =>
    if b.ret_start ≠ 0 then [.syncStart b.buffer.fd]
    else if b.ret_end ≠ 0 then [.syncStart b.buffer.fd, .syncEnd b.buffer.fd]
    else
      [.syncStart b.buffer.fd, .syncEnd b.buffer.fd, .encode b.buffer.fd] ++
        expectedSteps rest

/-- A completed buffer with descriptor `fd` and the given results of the begin
and the end cache synchronisation. -/
def bufferWith (fd : Nat) (ret_start ret_end : Int) : CompletedBuffer :=
  { stream := fd, buffer := ⟨fd, fd, 0, 3112960⟩, sequence := 0, timestamp := 0,
    ret_start := ret_start, current_time := 100, ret_end := ret_end }

/-- A completion of request 7 that is not cancelled, with the given buffers,
while the clock reads 1000 ns. -/
def completionOf (buffers : List CompletedBuffer) : Completion :=
  { request := 7, status := .RequestComplete, ns_since_epoch := 1000, buffers := buffers }

/-- A camera that rejects every configuration as invalid. -/
def invalidEnv : CameraEnv :=
  { sampleEnv with validate := fun c => (.Invalid, c) }

/-- A camera whose DMA heap is exhausted after two buffers. -/
def noMemoryEnv : CameraEnv :=
  { sampleEnv with alloc := fun _ i _ => if i < 2 then some (10 + i) else none }

/-- A camera that yields no request. -/
def noRequestEnv : CameraEnv :=
  { sampleEnv with createRequest := fun _ _ => false }

/-- A camera on which the second request does not accept its buffer. -/
def noBufferEnv : CameraEnv :=
  { sampleEnv with addBuffer := fun _ i => if i = 1 then -22 else 0 }

/-- A parameter store whose only override sets the buffer count of camera 0
to 2. -/
def twoBufferStore : ParamStore :=
  { emptyStore with
    ints := fun k => if k = "/camera_0.buffer_count" then some 2 else none }

end Picam

/-! ## Theorems -/

namespace Picam

/-! ### 32-bit arithmetic and the buffer size -/

/-- Masking a 32-bit value with `~0xFFF` clears its twelve low bits. -/
theorem and_not_mask (y : Nat) (hy : y < U32) : y &&& notU32 4095 = 4096 * (y / 4096) := by
  apply Nat.eq_of_testBit_eq
  intro i
  have e0 : U32 = 2 ^ 32 := rfl
  have e1 : (4095 : Nat) % 2 ^ 32 = 2 ^ 12 - 1 := by norm_num
  have e2 : (4096 : Nat) = 2 ^ 12 := by norm_num
  rw [notU32, e0, Nat.testBit_and, Nat.testBit_xor, e1, e2, Nat.testBit_two_pow_sub_one,
    Nat.testBit_two_pow_sub_one, Nat.testBit_mul_pow_two, ← Nat.shiftRight_eq_div_pow,
    Nat.testBit_shiftRight]
  by_cases h12 : 12 ≤ i
  · by_cases h32 : i < 32
    · have h1 : ¬ i < 12 := by omega
      have h2 : 12 + (i - 12) = i := by omega
      simp [h12, h32, h1, h2]
    · have hb : y.testBit i = false :=
        Nat.testBit_lt_two_pow
          (lt_of_lt_of_le (e0 ▸ hy) (Nat.pow_le_pow_right (by norm_num) (by omega)))
      have h2 : 12 + (i - 12) = i := by omega
      simp [h12, h32, hb, h2]
  · have h1 : i < 12 := by omega
    have h2 : i < 32 := by omega
    simp [h1, h2, h12]

/-- Closed form of `roundUp4096`, wrap-around included. -/
theorem roundUp4096_eq (x : Nat) : roundUp4096 x = 4096 * (((x + 4095) % U32) / 4096) := by
  have h : (x + 4095) % U32 < U32 := Nat.mod_lt _ (by decide)
  simpa [roundUp4096, addU32] using and_not_mask _ h

/-- Without wrap-around the rounded size is not below the argument. -/
theorem le_roundUp4096 (x : Nat) (hx : x ≤ 2 ^ 32 - 4096) : x ≤ roundUp4096 x := by
  have hmod : (x + 4095) % U32 = x + 4095 := Nat.mod_eq_of_lt (by unfold U32; omega)
  rw [roundUp4096_eq, hmod]
  omega

/-- C3. For every 32-bit `x` with `x ≤ 2^32 - 4096`, `roundUp4096 x` is the least
multiple of 4096 that is not below `x`: it is a multiple of 4096, lies in
`[x, x + 4096)`, equals `x` when `x` is a multiple of 4096, and no multiple of
4096 that is at least `x` is smaller. -/
theorem roundUp4096_least_multiple (x : Nat) (hx : x ≤ 2 ^ 32 - 4096) :
    roundUp4096 x % 4096 = 0 ∧ x ≤ roundUp4096 x ∧ roundUp4096 x < x + 4096 ∧
      (x % 4096 = 0 → roundUp4096 x = x) ∧
      ∀ m, m % 4096 = 0 → x ≤ m → roundUp4096 x ≤ m := by
  have hmod : (x + 4095) % U32 = x + 4095 := Nat.mod_eq_of_lt (by unfold U32; omega)
  rw [roundUp4096_eq, hmod]
  refine ⟨by omega, by omega, by omega, by omega, ?_⟩
  intro m hm hxm
  omega

/-- C3 at the frame size of a 1920x1080 4:2:0 frame. -/
theorem roundUp4096_least_multiple_witness :
    (3110400 : Nat) ≤ 2 ^ 32 - 4096 ∧
      (roundUp4096 3110400 % 4096 = 0 ∧ 3110400 ≤ roundUp4096 3110400 ∧
        roundUp4096 3110400 < 3110400 + 4096 ∧
        (3110400 % 4096 = 0 → roundUp4096 3110400 = 3110400) ∧
        ∀ m, m % 4096 = 0 → 3110400 ≤ m → roundUp4096 3110400 ≤ m) :=
  ⟨by decide, roundUp4096_least_multiple 3110400 (by decide)⟩

/-! ### Plane views -/

theorem mulU32_le (a b : Nat) : mulU32 a b ≤ a * b := Nat.mod_le _ _

/-- Unfolding of the three iterations of the plane loop. -/
theorem derivePlanes_eq (stride height : Nat) :
    derivePlanes stride height =
      [⟨0, mulU32 stride height, stride⟩,
       ⟨mulU32 stride height, mulU32 (stride / 2) (height / 2), stride / 2⟩,
       ⟨addU32 (mulU32 stride height) (mulU32 (stride / 2) (height / 2)),
        mulU32 (stride / 2) (height / 2), stride / 2⟩] := by
  have h : addU32 0 (mulU32 stride height) = mulU32 stride height := by
    simp [addU32, mulU32]
  simp [derivePlanes, planeStep, List.range_succ, h]

end Picam

namespace Picam

/-- When the frame size is at least `stride * height + 2 * (stride/2) * (height/2)`
for the stride and height the planes are cut with, and is at most `2^32 - 4096`,
the three plane lengths add up to at most `roundUp4096 frameSize`. -/
theorem plane_sum_le_buffer (stride height frameSize : Nat)
    (hf : frameSize ≤ 2 ^ 32 - 4096)
    (hcover : stride * height + 2 * ((stride / 2) * (height / 2)) ≤ frameSize) :
    planeLengthSum (derivePlanes stride height) ≤ roundUp4096 frameSize := by
  have h0 := mulU32_le stride height
  have h1 := mulU32_le (stride / 2) (height / 2)
  have hr := le_roundUp4096 frameSize hf
  rw [derivePlanes_eq]
  simp only [planeLengthSum, List.map, List.sum_cons, List.sum_nil]
  omega

/-- The bound on the plane lengths at 1920x1080 with stride 1920 and frame size
3110400. -/
theorem plane_sum_le_buffer_witness :
    (3110400 : Nat) ≤ 2 ^ 32 - 4096 ∧
      1920 * 1080 + 2 * ((1920 / 2) * (1080 / 2)) ≤ 3110400 ∧
      planeLengthSum (derivePlanes 1920 1080) ≤ roundUp4096 3110400 :=
  ⟨by decide, by decide, plane_sum_le_buffer 1920 1080 3110400 (by decide) (by decide)⟩

/-! ### Cancelled requests, start and stop guards -/

/-- C4. For every session and every request whose status is cancelled,
`captureRequestComplete` returns at once: the session is unchanged (log-throttle
time, FPS counter, timestamp base and frame index included) and nothing is asked
of any capability, so there is no cache synchronisation, no call of the encoder
and no requeue. -/
theorem cancelled_request_discarded (enc : EncoderModel) (s : Session) (c : Completion)
    (hc : c.status = .RequestCancelled) :
    (captureRequestComplete enc s c).state = s ∧
      (captureRequestComplete enc s c).trace = [] ∧
      (captureRequestComplete enc s c).result = .returned ∧
      (∀ fd, Event.syncStart fd ∉ (captureRequestComplete enc s c).trace) ∧
      (∀ fd, Event.syncEnd fd ∉ (captureRequestComplete enc s c).trace) ∧
      (∀ a, Event.encode a ∉ (captureRequestComplete enc s c).trace) ∧
      (∀ r, Event.reuse r ∉ (captureRequestComplete enc s c).trace) ∧
      (∀ r, Event.queueRequest r ∉ (captureRequestComplete enc s c).trace) := by
  simp [captureRequestComplete, hc]

/-- C4 on a running session with pending state and a cancelled request that
carries one buffer. -/
theorem cancelled_request_discarded_witness :
    let s : Session :=
      { idleSession with
        running := true, last_log := 5, frame_count := 7, last_fps := 30,
        last_fps_time := 100, timestamp_ns_base := 1000, frameIdx := 3 }
    let c : Completion :=
      { request := 0, status := .RequestCancelled, ns_since_epoch := 2000,
        buffers := [⟨0, ⟨1, 10, 0, 4096⟩, 0, 0, 0, 101, 0⟩] }
    c.status = .RequestCancelled ∧
      (captureRequestComplete idleEncoder s c).state = s ∧
      (captureRequestComplete idleEncoder s c).trace = [] ∧
      (captureRequestComplete idleEncoder s c).result = .returned ∧
      (∀ fd, Event.syncStart fd ∉ (captureRequestComplete idleEncoder s c).trace) ∧
      (∀ fd, Event.syncEnd fd ∉ (captureRequestComplete idleEncoder s c).trace) ∧
      (∀ a, Event.encode a ∉ (captureRequestComplete idleEncoder s c).trace) ∧
      (∀ r, Event.reuse r ∉ (captureRequestComplete idleEncoder s c).trace) ∧
      (∀ r, Event.queueRequest r ∉ (captureRequestComplete idleEncoder s c).trace) :=
  ⟨rfl, cancelled_request_discarded idleEncoder _ _ rfl⟩

/-- C5. On a session whose running flag is set `start()` changes nothing and asks
nothing of the camera; on a session whose running flag is clear `stop()` changes
nothing; hence a second `stop()` leaves the session exactly as the first one
did. -/
theorem start_stop_guards (env : CameraEnv) (store : ParamStore) (s : Session) :
    (s.running = true → start env store s = ⟨s, [], .returned⟩) ∧
      (s.running = false → stop s = ⟨s, [], .returned⟩) ∧
      stop (stop s).state = ⟨(stop s).state, [], .returned⟩ ∧
      (stop s).trace = [] := by
  refine ⟨fun h => by simp [start, h], fun h => by simp [stop, h], ?_, ?_⟩
  · cases h : s.running <;> simp [stop, h]
  · cases h : s.running <;> simp [stop, h]

/-- C5 on a running and on a stopped session. -/
theorem start_stop_guards_witness :
    ({ idleSession with running := true } : Session).running = true ∧
      idleSession.running = false ∧
      start sampleEnv emptyStore { idleSession with running := true } =
        ⟨{ idleSession with running := true }, [], .returned⟩ ∧
      stop idleSession = ⟨idleSession, [], .returned⟩ :=
  ⟨rfl, rfl,
    (start_stop_guards sampleEnv emptyStore { idleSession with running := true }).1 rfl,
    (start_stop_guards sampleEnv emptyStore idleSession).2.1 rfl⟩

end Picam

namespace Picam

/-! ### The completion pipeline -/

/-- The calls of `publish` change the output message and the printed-line count
only, and add only `publish` events to the trace. -/
theorem publishAll_spec (ps : List PublishArgs) :
    ∀ (s : Session) (tr : List Event), ∃ m l evs,
      publishAll ps s tr = ({ s with outFrameMsg := m, lines_printed := l }, tr ++ evs) ∧
        ∀ e ∈ evs, ∃ msg, e = Event.publish msg := by
  induction ps with
  | nil => intro s tr; exact ⟨s.outFrameMsg, s.lines_printed, [], by simp [publishAll], by simp⟩
  | cons a rest ih =>
    intro s tr
    obtain ⟨m, l, evs, h, hev⟩ := ih (publish s a).1 (tr ++ (publish s a).2)
    refine ⟨m, l, (publish s a).2 ++ evs, ?_, ?_⟩
    · rw [publishAll, h]
      cases hl : a.log <;> simp [publish, hl]
    · intro e he
      rcases List.mem_append.1 he with h1 | h1
      · exact ⟨_, by simpa [publish] using h1⟩
      · exact hev e h1

theorem encodeTimestamps_append (a b : List Event) :
    encodeTimestamps (a ++ b) = encodeTimestamps a ++ encodeTimestamps b := by
  simp [encodeTimestamps, List.filterMap_append]

theorem encodeTimestamps_publish (evs : List Event)
    (h : ∀ e ∈ evs, ∃ msg, e = Event.publish msg) : encodeTimestamps evs = [] := by
  induction evs with
  | nil => rfl
  | cons e rest ih =>
    obtain ⟨msg, rfl⟩ := h _ (List.mem_cons_self _ _)
    have := ih (fun e he => h e (List.mem_cons_of_mem _ he))
    simpa [encodeTimestamps] using this

theorem publishAll_base (ps : List PublishArgs) (s : Session) (tr : List Event) :
    (publishAll ps s tr).1.timestamp_ns_base = s.timestamp_ns_base := by
  obtain ⟨m, l, evs, h, _⟩ := publishAll_spec ps s tr
  rw [h]

theorem publishAll_fps (ps : List PublishArgs) (s : Session) (tr : List Event) :
    (publishAll ps s tr).1.frame_count = s.frame_count ∧
      (publishAll ps s tr).1.last_fps = s.last_fps ∧
      (publishAll ps s tr).1.last_fps_time = s.last_fps_time := by
  obtain ⟨m, l, evs, h, _⟩ := publishAll_spec ps s tr
  rw [h]
  exact ⟨rfl, rfl, rfl⟩

theorem publishAll_running (ps : List PublishArgs) (s : Session) (tr : List Event) :
    (publishAll ps s tr).1.running = s.running := by
  obtain ⟨m, l, evs, h, _⟩ := publishAll_spec ps s tr
  rw [h]

theorem publishAll_timestamps (ps : List PublishArgs) (s : Session) (tr : List Event) :
    encodeTimestamps (publishAll ps s tr).2 = encodeTimestamps tr := by
  obtain ⟨m, l, evs, h, hev⟩ := publishAll_spec ps s tr
  rw [h, encodeTimestamps_append, encodeTimestamps_publish evs hev, List.append_nil]

/-- The FPS fields after the accounting of lines 266-272. -/
theorem fpsUpdate_fields (s : Session) (t : Int) :
    (fpsUpdate s t).frame_count = (if t - s.last_fps_time ≥ 1 then 0 else s.frame_count) + 1 ∧
      (fpsUpdate s t).last_fps = (if t - s.last_fps_time ≥ 1 then s.frame_count else s.last_fps) ∧
      (fpsUpdate s t).last_fps_time = (if t - s.last_fps_time ≥ 1 then t else s.last_fps_time) := by
  unfold fpsUpdate
  split <;> simp

/-- One buffer whose two cache synchronisations succeed: the loop goes on, the
timestamp base is set if it was unset, the FPS fields are those of `fpsUpdate`,
and the encoder is called once with the clock reading minus the base. -/
theorem processBuffer_spec (enc : EncoderModel) (ns : Int) (log : Bool) (s : Session)
    (tr : List Event) (b : CompletedBuffer) (hs0 : b.ret_start = 0) (he0 : b.ret_end = 0) :
    (processBuffer enc ns log s tr b).exit = none ∧
      (processBuffer enc ns log s tr b).state.timestamp_ns_base =
        (if s.timestamp_ns_base = 0 then ns else s.timestamp_ns_base) ∧
      (processBuffer enc ns log s tr b).state.frame_count =
        (fpsUpdate s b.current_time).frame_count ∧
      (processBuffer enc ns log s tr b).state.last_fps =
        (fpsUpdate s b.current_time).last_fps ∧
      (processBuffer enc ns log s tr b).state.last_fps_time =
        (fpsUpdate s b.current_time).last_fps_time ∧
      (processBuffer enc ns log s tr b).state.running = s.running ∧
      encodeTimestamps (processBuffer enc ns log s tr b).trace =
        encodeTimestamps tr ++
          [ns - (if s.timestamp_ns_base = 0 then ns else s.timestamp_ns_base)] := by
  have hfb : (fpsUpdate s b.current_time).timestamp_ns_base = s.timestamp_ns_base := by
    unfold fpsUpdate; split <;> rfl
  have hfr : (fpsUpdate s b.current_time).running = s.running := by
    unfold fpsUpdate; split <;> rfl
  cases log <;> by_cases hz : s.timestamp_ns_base = 0 <;>
    simp only [processBuffer, hs0, he0, publishAll_base, publishAll_fps, publishAll_running,
      publishAll_timestamps, encodeTimestamps_append, hfb, hfr, hz, ne_eq, not_true_eq_false,
      if_false, if_true, true_and, and_true, Bool.false_eq_true, reduceIte] <;>
    simp [encodeTimestamps]

/-- One served completion: the callback returns; the timestamp base is set if it
was unset, the FPS fields follow the accounting of lines 266-272 for the reading
`t`, the running flag is kept, and the encoder is called once, with the clock
reading minus the base. -/
theorem completion_spec (enc : EncoderModel) (s : Session) (c : Completion) (t : Int)
    (h : c.okWith t) :
    (captureRequestComplete enc s c).result = .returned ∧
      (captureRequestComplete enc s c).state.timestamp_ns_base =
        (if s.timestamp_ns_base = 0 then c.ns_since_epoch else s.timestamp_ns_base) ∧
      (captureRequestComplete enc s c).state.frame_count =
        (if t - s.last_fps_time ≥ 1 then 0 else s.frame_count) + 1 ∧
      (captureRequestComplete enc s c).state.last_fps =
        (if t - s.last_fps_time ≥ 1 then s.frame_count else s.last_fps) ∧
      (captureRequestComplete enc s c).state.last_fps_time =
        (if t - s.last_fps_time ≥ 1 then t else s.last_fps_time) ∧
      (captureRequestComplete enc s c).state.running = s.running ∧
      encodeTimestamps (captureRequestComplete enc s c).trace =
        [c.ns_since_epoch -
          (if s.timestamp_ns_base = 0 then c.ns_since_epoch else s.timestamp_ns_base)] := by
  obtain ⟨hst, b, hb, hs0, he0, ht⟩ := h
  subst ht
  obtain ⟨log, hlog⟩ : ∃ log : Bool, log = decide (s.log_message_every_ns > -1 ∧
      c.ns_since_epoch - s.last_log ≥ s.log_message_every_ns) := ⟨_, rfl⟩
  obtain ⟨s1, hs1, hb1, hc1, hl1, ht1, hr1⟩ : ∃ s1 : Session,
      s1 = (if log then { s with last_log := c.ns_since_epoch } else s) ∧
      s1.timestamp_ns_base = s.timestamp_ns_base ∧ s1.frame_count = s.frame_count ∧
      s1.last_fps = s.last_fps ∧ s1.last_fps_time = s.last_fps_time ∧
      s1.running = s.running := by
    refine ⟨_, rfl, ?_⟩
    cases log <;> simp
  obtain ⟨k1, k2, k3, k4, k5, k6, k7⟩ :=
    processBuffer_spec enc c.ns_since_epoch log s1 [] b hs0 he0
  obtain ⟨f1, f2, f3⟩ := fpsUpdate_fields s1 b.current_time
  rw [hb1] at k2 k7
  rw [f1, hc1, ht1] at k3
  rw [f2, hc1, hl1, ht1] at k4
  rw [f3, ht1] at k5
  rw [hr1] at k6
  have hcr : captureRequestComplete enc s c =
      if (processBuffer enc c.ns_since_epoch log s1 [] b).state.running = false then
        ⟨(processBuffer enc c.ns_since_epoch log s1 [] b).state,
          (processBuffer enc c.ns_since_epoch log s1 [] b).trace, .returned⟩
      else
        ⟨(processBuffer enc c.ns_since_epoch log s1 [] b).state,
          (processBuffer enc c.ns_since_epoch log s1 [] b).trace ++
            [.reuse c.request, .queueRequest c.request], .returned⟩ := by
    simp only [captureRequestComplete, if_neg hst, hb, processBuffers, ← hlog, ← hs1, k1]
  rw [hcr]
  split
  · exact ⟨rfl, k2, k3, k4, k5, k6, by simpa [encodeTimestamps] using k7⟩
  · refine ⟨rfl, k2, k3, k4, k5, k6, ?_⟩
    rw [encodeTimestamps_append, k7]
    simp [encodeTimestamps]

end Picam

namespace Picam

theorem frameAt_okWith (request : Nat) (ns time : Int) (hw : Nat) :
    (frameAt request ns time hw).okWith time :=
  ⟨by simp [frameAt], _, rfl, rfl, rfl, rfl⟩

theorem runCompletions_cons (enc : EncoderModel) (c : Completion) (rest : List Completion)
    (s : Session) (tr : List Event)
    (h : (captureRequestComplete enc s c).result = .returned) :
    runCompletions enc (c :: rest) s tr =
      runCompletions enc rest (captureRequestComplete enc s c).state
        (tr ++ (captureRequestComplete enc s c).trace) := by
  simp [runCompletions, h]

theorem runCompletions_append (enc : EncoderModel) (a b : List Completion) :
    ∀ (s : Session) (tr : List Event), (runCompletions enc a s tr).result = .returned →
      runCompletions enc (a ++ b) s tr =
        runCompletions enc b (runCompletions enc a s tr).state
          (runCompletions enc a s tr).trace := by
  induction a with
  | nil => intro s tr _; simp [runCompletions]
  | cons c rest ih =>
    intro s tr h
    cases hc : (captureRequestComplete enc s c).result with
    | threw msg => simp [runCompletions, hc] at h
    | returned =>
      rw [runCompletions_cons enc c rest s tr hc] at h ⊢
      rw [List.cons_append, runCompletions_cons enc c (rest ++ b) s tr hc]
      exact ih _ _ h

/-- Once the timestamp base is set, served completions keep it, and each passes
its clock reading minus the base to the encoder. -/
theorem runCompletions_steady (enc : EncoderModel) (cs : List Completion) :
    ∀ (s : Session) (tr : List Event), s.timestamp_ns_base ≠ 0 →
      (∀ c ∈ cs, ∃ t, c.okWith t) →
      (runCompletions enc cs s tr).result = .returned ∧
        (runCompletions enc cs s tr).state.timestamp_ns_base = s.timestamp_ns_base ∧
        encodeTimestamps (runCompletions enc cs s tr).trace =
          encodeTimestamps tr ++ cs.map (fun c => c.ns_since_epoch - s.timestamp_ns_base) := by
  induction cs with
  | nil => intro s tr _ _; simp [runCompletions]
  | cons c rest ih =>
    intro s tr hb hok
    obtain ⟨t, ht⟩ := hok c (List.mem_cons_self _ _)
    obtain ⟨k1, k2, -, -, -, -, k7⟩ := completion_spec enc s c t ht
    rw [if_neg hb] at k2 k7
    rw [runCompletions_cons enc c rest s tr k1]
    obtain ⟨i1, i2, i3⟩ := ih (captureRequestComplete enc s c).state
      (tr ++ (captureRequestComplete enc s c).trace) (by rw [k2]; exact hb)
      (fun c hc => hok c (List.mem_cons_of_mem _ hc))
    refine ⟨i1, by rw [i2, k2], ?_⟩
    rw [i3, encodeTimestamps_append, k7, k2]
    simp

/-- Served completions inside the current FPS window only increment the count. -/
theorem runCompletions_window (enc : EncoderModel) (cs : List Completion) :
    ∀ (s : Session) (tr : List Event),
      (∀ c ∈ cs, ∃ t, c.okWith t ∧ t - s.last_fps_time < 1) →
      (runCompletions enc cs s tr).result = .returned ∧
        (runCompletions enc cs s tr).state.frame_count = s.frame_count + cs.length ∧
        (runCompletions enc cs s tr).state.last_fps = s.last_fps ∧
        (runCompletions enc cs s tr).state.last_fps_time = s.last_fps_time := by
  induction cs with
  | nil => intro s tr _; simp [runCompletions]
  | cons c rest ih =>
    intro s tr hin
    obtain ⟨t, ht, hlt⟩ := hin c (List.mem_cons_self _ _)
    obtain ⟨k1, -, k3, k4, k5, -, -⟩ := completion_spec enc s c t ht
    have hng : ¬ (t - s.last_fps_time ≥ 1) := by omega
    rw [if_neg hng] at k3 k4 k5
    rw [runCompletions_cons enc c rest s tr k1]
    obtain ⟨i1, i2, i3, i4⟩ := ih (captureRequestComplete enc s c).state
      (tr ++ (captureRequestComplete enc s c).trace)
      (fun c hc => by rw [k5]; exact hin c (List.mem_cons_of_mem _ hc))
    refine ⟨i1, ?_, by rw [i3, k4], by rw [i4, k5]⟩
    rw [i2, k3, List.length_cons]
    push_cast
    ring

end Picam

namespace Picam

/-! ### Timestamp base -/

/-- C6 as stated fails: the timestamp is the difference of two clock readings and
nothing keeps the second reading from being the smaller one.  A first frame
completes when the clock reads 100 ns, the next one when it reads 50 ns (the
clock was set back in between): the encoder receives the timestamps 0 and -50. -/
theorem timestamp_negative_after_clock_step :
    encodeTimestamps
        (runCompletions idleEncoder [frameAt 0 100 1 0, frameAt 1 50 1 0]
          { idleSession with running := true } []).trace = [0, -50] ∧
      ¬ (∀ t ∈ encodeTimestamps
          (runCompletions idleEncoder [frameAt 0 100 1 0, frameAt 1 50 1 0]
            { idleSession with running := true } []).trace, (0 : Int) ≤ t) := by
  decide

/-- C6, amended. On a session whose timestamp base is unset, for every sequence
of served completions whose first clock reading is not zero: after the first
completion and after every later one the base equals the first completion's clock
reading; every completion passes (its clock reading - base) to the encoder, 0 for
the first one, whatever the frame metadata holds; and the timestamps of all
completions whose clock reading is not earlier than the first one are `≥ 0`. -/
theorem timestamp_base_set_once (enc : EncoderModel) (s : Session) (c0 : Completion)
    (cs : List Completion) (hbase : s.timestamp_ns_base = 0) (h0 : ∃ t, c0.okWith t)
    (hcs : ∀ c ∈ cs, ∃ t, c.okWith t) (hne : c0.ns_since_epoch ≠ 0) :
    (∀ n, (runCompletions enc ((c0 :: cs).take (n + 1)) s []).state.timestamp_ns_base =
        c0.ns_since_epoch) ∧
      (runCompletions enc (c0 :: cs) s []).result = .returned ∧
      encodeTimestamps (runCompletions enc (c0 :: cs) s []).trace =
        (c0 :: cs).map (fun c => c.ns_since_epoch - c0.ns_since_epoch) ∧
      (encodeTimestamps (runCompletions enc (c0 :: cs) s []).trace).head? = some 0 ∧
      ((∀ c ∈ cs, c0.ns_since_epoch ≤ c.ns_since_epoch) →
        ∀ t ∈ encodeTimestamps (runCompletions enc (c0 :: cs) s []).trace, 0 ≤ t) := by
  obtain ⟨t0, ht0⟩ := h0
  obtain ⟨k1, k2, -, -, -, -, k7⟩ := completion_spec enc s c0 t0 ht0
  rw [if_pos hbase] at k2 k7
  have hb' : (captureRequestComplete enc s c0).state.timestamp_ns_base ≠ 0 := by
    rw [k2]; exact hne
  have main : ∀ rest : List Completion, (∀ c ∈ rest, ∃ t, c.okWith t) →
      (runCompletions enc (c0 :: rest) s []).result = .returned ∧
        (runCompletions enc (c0 :: rest) s []).state.timestamp_ns_base = c0.ns_since_epoch ∧
        encodeTimestamps (runCompletions enc (c0 :: rest) s []).trace =
          (c0 :: rest).map (fun c => c.ns_since_epoch - c0.ns_since_epoch) := by
    intro rest hrest
    rw [runCompletions_cons enc c0 rest s [] k1]
    obtain ⟨i1, i2, i3⟩ := runCompletions_steady enc rest
      (captureRequestComplete enc s c0).state ([] ++ (captureRequestComplete enc s c0).trace)
      hb' hrest
    refine ⟨i1, by rw [i2, k2], ?_⟩
    rw [i3, List.nil_append, k7, k2]
    simp
  obtain ⟨m1, -, m3⟩ := main cs hcs
  refine ⟨fun n => ?_, m1, m3, by rw [m3]; simp, fun hmono t ht => ?_⟩
  · rw [List.take_succ_cons]
    exact (main (cs.take n) (fun c hc => hcs c (List.mem_of_mem_take hc))).2.1
  · rw [m3] at ht
    rcases List.mem_map.1 ht with ⟨c, hc, rfl⟩
    rcases List.mem_cons.1 hc with rfl | hc
    · simp
    · have := hmono c hc
      omega

/-- C6, amended, on three frames completing at 1000, 1500 and 2750 ns with
unrelated metadata timestamps. -/
theorem timestamp_base_set_once_witness :
    (runCompletions idleEncoder [frameAt 0 1000 1 7, frameAt 1 1500 1 8, frameAt 2 2750 1 9]
        idleSession []).state.timestamp_ns_base = 1000 ∧
      encodeTimestamps
          (runCompletions idleEncoder
            [frameAt 0 1000 1 7, frameAt 1 1500 1 8, frameAt 2 2750 1 9]
            idleSession []).trace =
        [1000 - 1000, 1500 - 1000, 2750 - 1000] :=
  have h := timestamp_base_set_once idleEncoder idleSession (frameAt 0 1000 1 7)
    [frameAt 1 1500 1 8, frameAt 2 2750 1 9] rfl ⟨_, frameAt_okWith _ _ _ _⟩
    (fun c hc => by
      rcases List.mem_cons.1 hc with rfl | hc
      · exact ⟨_, frameAt_okWith _ _ _ _⟩
      · rcases List.mem_cons.1 hc with rfl | hc
        · exact ⟨_, frameAt_okWith _ _ _ _⟩
        · cases hc)
    (by decide)
  ⟨h.1 2, h.2.2.1⟩

/-! ### FPS counter -/

/-- C7. A completion that finds at least one second elapsed opens an FPS window at
its reading `t0`; if it and the `cs.length` served completions that follow all
fall inside that window, the count stands at `cs.length + 1`, and the next
completion whose reading is at least one second after `t0` stores that number in
`last_fps`, moves the sample time to its own reading and restarts the count
(zero, then counting itself).  With 30 completions in the window `last_fps` is
30. -/
theorem fps_reports_window_count (enc : EncoderModel) (s : Session) (c0 c1 : Completion)
    (cs : List Completion) (t0 t1 : Int) (h0 : c0.okWith t0)
    (hopen : t0 - s.last_fps_time ≥ 1) (hin : ∀ c ∈ cs, ∃ t, c.okWith t ∧ t - t0 < 1)
    (h1 : c1.okWith t1) (hclose : t1 - t0 ≥ 1) :
    (runCompletions enc (c0 :: cs) s []).state.frame_count = cs.length + 1 ∧
      (runCompletions enc (c0 :: cs) s []).state.last_fps_time = t0 ∧
      (runCompletions enc (c0 :: cs ++ [c1]) s []).result = .returned ∧
      (runCompletions enc (c0 :: cs ++ [c1]) s []).state.last_fps = cs.length + 1 ∧
      (runCompletions enc (c0 :: cs ++ [c1]) s []).state.frame_count = 1 ∧
      (runCompletions enc (c0 :: cs ++ [c1]) s []).state.last_fps_time = t1 ∧
      (cs.length + 1 = 30 →
        (runCompletions enc (c0 :: cs ++ [c1]) s []).state.last_fps = 30) := by
  obtain ⟨k1, -, k3, -, k5, -, -⟩ := completion_spec enc s c0 t0 h0
  rw [if_pos hopen] at k3 k5
  have hw := runCompletions_window enc cs (captureRequestComplete enc s c0).state
    ([] ++ (captureRequestComplete enc s c0).trace) (fun c hc => by rw [k5]; exact hin c hc)
  rw [← runCompletions_cons enc c0 cs s [] k1] at hw
  obtain ⟨w1, w2, -, w4⟩ := hw
  rw [k3] at w2
  rw [k5] at w4
  have happ := runCompletions_append enc (c0 :: cs) [c1] s [] w1
  obtain ⟨j1, -, j3, j4, j5, -, -⟩ :=
    completion_spec enc (runCompletions enc (c0 :: cs) s []).state c1 t1 h1
  rw [w4, if_pos hclose] at j3 j4 j5
  have hlast : runCompletions enc (c0 :: cs ++ [c1]) s [] =
      ⟨(captureRequestComplete enc (runCompletions enc (c0 :: cs) s []).state c1).state,
        (runCompletions enc (c0 :: cs) s []).trace ++
          (captureRequestComplete enc (runCompletions enc (c0 :: cs) s []).state c1).trace,
        .returned⟩ := by
    rw [happ, runCompletions_cons enc c1 [] _ _ j1]
    rfl
  have hfps : (runCompletions enc (c0 :: cs ++ [c1]) s []).state.last_fps = cs.length + 1 := by
    rw [hlast]
    show (captureRequestComplete enc _ c1).state.last_fps = _
    rw [j4, w2]
    ring
  refine ⟨by rw [w2]; ring, w4, by rw [hlast], hfps, ?_, ?_, fun h30 => ?_⟩
  · rw [hlast]
    show (captureRequestComplete enc _ c1).state.frame_count = _
    rw [j3]
    ring
  · rw [hlast]
    exact j5
  · rw [hfps]
    exact_mod_cast h30

/-- C7 on 30 frames completing in second 100 and one in second 101. -/
theorem fps_reports_window_count_witness :
    (runCompletions idleEncoder
        (frameAt 0 5 100 0 :: List.replicate 29 (frameAt 1 6 100 0) ++ [frameAt 2 7 101 0])
        idleSession []).state.last_fps = 30 :=
  (fps_reports_window_count idleEncoder idleSession (frameAt 0 5 100 0) (frameAt 2 7 101 0)
    (List.replicate 29 (frameAt 1 6 100 0)) 100 101 (frameAt_okWith _ _ _ _) (by decide)
    (fun c hc => by
      rw [List.eq_of_mem_replicate hc]
      exact ⟨100, frameAt_okWith _ _ _ _, by decide⟩)
    (frameAt_okWith _ _ _ _) (by decide)).2.2.2.2.2.2 (by simp)

end Picam

namespace Picam

/-! ### The loops of start -/

theorem countCreateRequests_append (a b : List Event) :
    countCreateRequests (a ++ b) = countCreateRequests a + countCreateRequests b := by
  simp [countCreateRequests, List.filter_append]

theorem countAllocs_append (a b : List Event) :
    countAllocs (a ++ b) = countAllocs a + countAllocs b := by
  simp [countAllocs, List.filter_append]

/-- The request loop appends requests that carry `requestControls`, touches no
other field, and either visits every buffer (one request per buffer, in order)
or stops with an early `return` after a message on `cerr`. -/
theorem makeRequests_spec (env : CameraEnv) (k stream : Nat) (bufs : List FrameBuffer) :
    ∀ (i : Nat) (s : Session) (tr : List Event), ∃ news evs,
      (makeRequests env k stream bufs i s tr).state =
          { s with capture_requests := s.capture_requests ++ news } ∧
        (makeRequests env k stream bufs i s tr).trace = tr ++ evs ∧
        (∀ r ∈ news, r.controls = requestControls s) ∧
        (∀ e ∈ evs, e.isSetup = true) ∧ countAllocs evs = 0 ∧
        (((makeRequests env k stream bufs i s tr).exit = none ∧
            news.map Request.buffers = bufs.map (fun b => [(stream, b)]) ∧
            countCreateRequests evs = bufs.length) ∨
          ((makeRequests env k stream bufs i s tr).exit = some .returned ∧
            (Event.cerr "Can't create request" ∈ evs ∨
              Event.cerr "Can't set buffer for request" ∈ evs))) := by
  induction bufs with
  | nil =>
    intro i s tr
    exact ⟨[], [], by simp [makeRequests], by simp [makeRequests], by simp, by simp, rfl,
      Or.inl ⟨rfl, rfl, rfl⟩⟩
  | cons b rest ih =>
    intro i s tr
    by_cases hc : env.createRequest k i = false
    · refine ⟨[], [.createRequest, .cerr "Can't create request"], ?_, ?_, by simp, ?_, rfl,
        ?_⟩
      · simp [makeRequests, hc]
      · simp [makeRequests, hc]
      · intro e he
        simp at he
        rcases he with rfl | rfl <;> rfl
      · exact Or.inr ⟨by simp [makeRequests, hc], Or.inl (by simp)⟩
    · by_cases ha : env.addBuffer k i < 0
      · refine ⟨[], [.createRequest, .addBuffer stream b.id,
          .cerr "Can't set buffer for request"], ?_, ?_, by simp, ?_, rfl, ?_⟩
        · simp [makeRequests, hc, ha]
        · simp [makeRequests, hc, ha]
        · intro e he
          simp at he
          rcases he with rfl | rfl | rfl <;> rfl
        · exact Or.inr ⟨by simp [makeRequests, hc, ha], Or.inr (by simp)⟩
      · obtain ⟨news, evs, h1, h2, h3, h4, h4a, h5⟩ := ih (i + 1)
          { s with capture_requests := s.capture_requests ++
              [{ id := s.capture_requests.length, controls := requestControls s,
                 buffers := [(stream, b)] }] }
          (tr ++ [.createRequest] ++ [.addBuffer stream b.id])
        have hstep : makeRequests env k stream (b :: rest) i s tr =
            makeRequests env k stream rest (i + 1)
              { s with capture_requests := s.capture_requests ++
                  [{ id := s.capture_requests.length, controls := requestControls s,
                     buffers := [(stream, b)] }] }
              (tr ++ [.createRequest] ++ [.addBuffer stream b.id]) := by
          simp [makeRequests, hc, ha]
        refine ⟨(⟨s.capture_requests.length, requestControls s, [(stream, b)]⟩ : Request) :: news,
          [.createRequest, .addBuffer stream b.id] ++ evs, ?_, ?_, ?_, ?_, ?_, ?_⟩
        · rw [hstep, h1]; simp
        · rw [hstep, h2]; simp
        · intro r hr
          rcases List.mem_cons.1 hr with rfl | hr
          · rfl
          · exact h3 r hr
        · intro e he
          rcases List.mem_append.1 he with he | he
          · simp at he
            rcases he with rfl | rfl <;> rfl
          · exact h4 e he
        · rw [countAllocs_append, h4a]; rfl
        · rw [hstep]
          rcases h5 with ⟨e1, e2, e3⟩ | ⟨e1, e2⟩
          · refine Or.inl ⟨e1, by simp [e2], ?_⟩
            rw [countCreateRequests_append, e3]
            simp [countCreateRequests, Nat.add_comm]
          · refine Or.inr ⟨e1, ?_⟩
            rcases e2 with e2 | e2
            · exact Or.inl (List.mem_append_right _ e2)
            · exact Or.inr (List.mem_append_right _ e2)

end Picam

namespace Picam

theorem foldl_max_ge (l : List Nat) :
    ∀ a : Nat, a ≤ l.foldl max a ∧ ∀ x ∈ l, x ≤ l.foldl max a := by
  induction l with
  | nil => intro a; simp
  | cons y rest ih =>
    intro a
    obtain ⟨h1, h2⟩ := ih (max a y)
    refine ⟨le_trans (le_max_left a y) h1, fun x hx => ?_⟩
    rcases List.mem_cons.1 hx with rfl | hx
    · exact le_trans (le_max_right a x) h1
    · exact h2 x hx

/-- A new table key differs from every key present. -/
theorem freshKey_not_mem {α : Type} (m : List (Nat × α)) : freshKey m ∉ m.map Prod.fst := by
  intro h
  have := (foldl_max_ge (m.map Prod.fst) 0).2 _ h
  unfold freshKey at this
  omega

theorem pushBackAll_keys {α : Type} (m : List (Nat × List α)) (k : Nat) (vs : List α) :
    k ∈ (pushBackAll m k vs).map Prod.fst ∧
      ∀ x ∈ m.map Prod.fst, x ∈ (pushBackAll m k vs).map Prod.fst := by
  unfold pushBackAll
  split
  · rename_i h
    have hmap : (m.map (fun e => if e.1 = k then (k, e.2 ++ vs) else e)).map Prod.fst =
        m.map Prod.fst := by
      rw [List.map_map]
      apply List.map_congr_left
      intro e _
      by_cases he : e.1 = k <;> simp [he]
    rw [hmap]
    refine ⟨?_, fun x hx => hx⟩
    obtain ⟨e, he, hk⟩ := List.any_eq_true.1 h
    exact List.mem_map.2 ⟨e, he, by simpa using hk⟩
  · rw [List.map_append]
    exact ⟨List.mem_append_right _ (by simp), fun x hx => List.mem_append_left _ hx⟩

/-- The buffer loop touches only the two plane tables, emits only allocation and
mapping events, and either allocates `todo` buffers with keys that are new and
pairwise distinct, or throws the allocation error. -/
theorem allocBuffers_spec (env : CameraEnv) (k : Nat) (todo : Nat) :
    ∀ (i : Nat) (bufs : List FrameBuffer) (s : Session) (tr : List Event), ∃ news m ms evs,
      (allocBuffers env k todo i bufs s tr).1 = bufs ++ news ∧
        (allocBuffers env k todo i bufs s tr).2.state =
          { s with mapped_capture_buffers := m, mapped_capture_buffer_strides := ms } ∧
        (allocBuffers env k todo i bufs s tr).2.trace = tr ++ evs ∧
        (∀ e ∈ evs, e.isSetup = true) ∧ countCreateRequests evs = 0 ∧
        (∀ x ∈ s.mapped_capture_buffers.map Prod.fst, x ∈ m.map Prod.fst) ∧
        (∀ b ∈ news, b.id ∈ m.map Prod.fst ∧ b.id ∉ s.mapped_capture_buffers.map Prod.fst) ∧
        (news.map FrameBuffer.id).Nodup ∧
        (((allocBuffers env k todo i bufs s tr).2.exit = none ∧ news.length = todo ∧
            countAllocs evs = todo) ∨
          (allocBuffers env k todo i bufs s tr).2.exit =
            some (.threw "Failed to allocate capture buffers for stream")) := by
  induction todo with
  | zero =>
    intro i bufs s tr
    exact ⟨[], s.mapped_capture_buffers, s.mapped_capture_buffer_strides, [],
      by simp [allocBuffers], by simp [allocBuffers], by simp [allocBuffers], by simp, rfl,
      fun x hx => hx, by simp, by simp, Or.inl ⟨by simp [allocBuffers], rfl, rfl⟩⟩
  | succ n ih =>
    intro i bufs s tr
    cases ha : env.alloc k i s.buffer_size with
    | none =>
      refine ⟨[], s.mapped_capture_buffers, s.mapped_capture_buffer_strides,
        [.dmaAlloc ("pica-ros2-" ++ toString i) s.buffer_size], by simp [allocBuffers, ha],
        by simp [allocBuffers, ha], by simp [allocBuffers, ha], ?_, rfl, fun x hx => hx,
        by simp, by simp, Or.inr (by simp [allocBuffers, ha])⟩
      intro e he
      simp at he
      subst he
      rfl
    | some fd =>
      obtain ⟨fb, hfb⟩ : ∃ fb : FrameBuffer, fb =
          ⟨freshKey s.mapped_capture_buffers, fd, 0, s.buffer_size⟩ := ⟨_, rfl⟩
      obtain ⟨s1, hs1⟩ : ∃ s1 : Session, s1 =
          { s with
            mapped_capture_buffers :=
              pushBackAll s.mapped_capture_buffers fb.id
                ((derivePlanes s.stride s.height).map
                  (fun p => ⟨env.mmap fd s.buffer_size, p.offset, p.length⟩))
            mapped_capture_buffer_strides :=
              pushBackAll s.mapped_capture_buffer_strides fb.id
                ((derivePlanes s.stride s.height).map PlaneView.stride) } := ⟨_, rfl⟩
      have hstep : allocBuffers env k (n + 1) i bufs s tr =
          allocBuffers env k n (i + 1) (bufs ++ [fb]) s1
            (tr ++ [.dmaAlloc ("pica-ros2-" ++ toString i) s.buffer_size] ++
              [.mmap fd s.buffer_size]) := by
        simp [allocBuffers, ha, hfb, hs1]
      obtain ⟨news, m, ms, evs, h1, h2, h3, h4, h5, h6, h7, h8, h9⟩ :=
        ih (i + 1) (bufs ++ [fb]) s1
          (tr ++ [.dmaAlloc ("pica-ros2-" ++ toString i) s.buffer_size] ++
            [.mmap fd s.buffer_size])
      have hkeys := pushBackAll_keys s.mapped_capture_buffers fb.id
        ((derivePlanes s.stride s.height).map
          (fun p => (⟨env.mmap fd s.buffer_size, p.offset, p.length⟩ : AVBuffer)))
      have hs1m : s1.mapped_capture_buffers = pushBackAll s.mapped_capture_buffers fb.id
          ((derivePlanes s.stride s.height).map
            (fun p => (⟨env.mmap fd s.buffer_size, p.offset, p.length⟩ : AVBuffer))) := by
        rw [hs1]
      have hfresh : fb.id ∉ s.mapped_capture_buffers.map Prod.fst := by
        rw [hfb]; exact freshKey_not_mem _
      refine ⟨fb :: news, m, ms,
        [.dmaAlloc ("pica-ros2-" ++ toString i) s.buffer_size, .mmap fd s.buffer_size] ++ evs,
        ?_, ?_, ?_, ?_, ?_, ?_, ?_, ?_, ?_⟩
      · rw [hstep, h1]; simp
      · rw [hstep, h2, hs1]
      · rw [hstep, h3]; simp
      · intro e he
        rcases List.mem_append.1 he with he | he
        · simp at he
          rcases he with rfl | rfl <;> rfl
        · exact h4 e he
      · rw [countCreateRequests_append, h5]; rfl
      · intro x hx
        exact h6 x (by rw [hs1m]; exact hkeys.2 x hx)
      · intro b hb
        rcases List.mem_cons.1 hb with rfl | hb
        · exact ⟨h6 _ (by rw [hs1m]; exact hkeys.1), hfresh⟩
        · exact ⟨(h7 b hb).1, fun hx => (h7 b hb).2 (by rw [hs1m]; exact hkeys.2 _ hx)⟩
      · rw [List.map_cons, List.nodup_cons]
        refine ⟨fun hmem => ?_, h8⟩
        obtain ⟨b, hb, hbid⟩ := List.mem_map.1 hmem
        exact (h7 b hb).2 (by rw [hs1m, hbid]; exact hkeys.1)
      · rw [hstep]
        rcases h9 with ⟨e1, e2, e3⟩ | e1
        · refine Or.inl ⟨e1, by simp [e2], ?_⟩
          rw [countAllocs_append, e3]
          simp [countAllocs, Nat.add_comm]
        · exact Or.inr e1

end Picam

namespace Picam

/-- The request loop when the camera yields no request. -/
theorem makeRequests_no_request (env : CameraEnv) (k stream : Nat) (b : FrameBuffer)
    (rest : List FrameBuffer) (i : Nat) (s : Session) (tr : List Event)
    (h : env.createRequest k i = false) :
    makeRequests env k stream (b :: rest) i s tr =
      ⟨s, tr ++ [.createRequest, .cerr "Can't create request"], some .returned⟩ := by
  simp [makeRequests, h]

/-- One pass of the stream loop, by the way its two inner loops end. -/
theorem streamLoop_cons (env : CameraEnv) (cfg : StreamConfiguration)
    (rest : List StreamConfiguration) (k : Nat) (s : Session) (tr : List Event) :
    ∃ (a : List FrameBuffer × Carry) (q : Carry),
      a = allocBuffers env k cfg.bufferCount 0 []
        { s with buffer_size := roundUp4096 cfg.frameSize } tr ∧
      q = makeRequests env k cfg.stream
        (lookupVec (assignVec a.2.state.capture_frame_buffers cfg.stream a.1) cfg.stream) 0
        { a.2.state with
          capture_frame_buffers := assignVec a.2.state.capture_frame_buffers cfg.stream a.1 }
        a.2.trace ∧
      (∀ r, a.2.exit = some r →
        streamLoop env (cfg :: rest) k s tr = ⟨a.2.state, a.2.trace, some r⟩) ∧
      (∀ r, a.2.exit = none → q.exit = some r →
        streamLoop env (cfg :: rest) k s tr = ⟨q.state, q.trace, some r⟩) ∧
      (a.2.exit = none → q.exit = none →
        streamLoop env (cfg :: rest) k s tr = streamLoop env rest (k + 1) q.state q.trace) := by
  refine ⟨_, _, rfl, rfl, ?_, ?_, ?_⟩
  · intro r h
    simp only [streamLoop, h]
  · intro r h1 h2
    simp only [streamLoop, h1, h2]
  · intro h1 h2
    simp only [streamLoop, h1, h2]

end Picam

namespace Picam

/-- The stream loop changes only the buffer size, the lookup tables and the
request list, to which it appends requests carrying `requestControls`; it emits
only set-up events; it ends normally, by an early `return` after a message on
`cerr`, or by the allocation error.  When the camera yields no request, the
first call of `createRequest` ends it by the early `return`. -/
theorem streamLoop_spec (env : CameraEnv) (cfgs : List StreamConfiguration) :
    ∀ (k : Nat) (s : Session) (tr : List Event), ∃ news bs m ms fb evs,
      (streamLoop env cfgs k s tr).state =
          { s with
            buffer_size := bs, mapped_capture_buffers := m,
            mapped_capture_buffer_strides := ms, capture_frame_buffers := fb,
            capture_requests := s.capture_requests ++ news } ∧
        (streamLoop env cfgs k s tr).trace = tr ++ evs ∧
        (∀ r ∈ news, r.controls = requestControls s) ∧
        (∀ e ∈ evs, e.isSetup = true) ∧
        ((streamLoop env cfgs k s tr).exit = none ∨
          ((streamLoop env cfgs k s tr).exit = some .returned ∧
            (Event.cerr "Can't create request" ∈ evs ∨
              Event.cerr "Can't set buffer for request" ∈ evs)) ∨
          (streamLoop env cfgs k s tr).exit =
            some (.threw "Failed to allocate capture buffers for stream")) ∧
        ((∀ k i, env.createRequest k i = false) → countCreateRequests evs ≠ 0 →
          (streamLoop env cfgs k s tr).exit = some .returned ∧
            Event.cerr "Can't create request" ∈ evs) := by
  induction cfgs with
  | nil =>
    intro k s tr
    exact ⟨[], s.buffer_size, s.mapped_capture_buffers, s.mapped_capture_buffer_strides,
      s.capture_frame_buffers, [], by simp [streamLoop], by simp [streamLoop], by simp,
      by simp, Or.inl (by simp [streamLoop]), fun _ h => absurd rfl h⟩
  | cons cfg rest ih =>
    intro k s tr
    obtain ⟨a, q, ha, hq, c1, c2, c3⟩ := streamLoop_cons env cfg rest k s tr
    obtain ⟨bufs, m, ms, evs, a1, a2, a3, a4, a5, -, -, -, a9⟩ :=
      allocBuffers_spec env k cfg.bufferCount 0 []
        { s with buffer_size := roundUp4096 cfg.frameSize } tr
    rw [← ha] at a1 a2 a3 a9
    rcases a9 with ⟨ae, -, -⟩ | ae
    swap
    · -- the allocation failed
      refine ⟨[], roundUp4096 cfg.frameSize, m, ms, s.capture_frame_buffers, evs, ?_, ?_,
        by simp, a4, Or.inr (Or.inr (by rw [c1 _ ae])), fun _ h => absurd a5 h⟩
      · rw [c1 _ ae, a2]; simp
      · rw [c1 _ ae, a3]
    · obtain ⟨news, evs2, q1, q2, q3, q4, -, q5⟩ := makeRequests_spec env k cfg.stream
        (lookupVec (assignVec a.2.state.capture_frame_buffers cfg.stream a.1) cfg.stream) 0
        { a.2.state with
          capture_frame_buffers := assignVec a.2.state.capture_frame_buffers cfg.stream a.1 }
        a.2.trace
      rw [← hq] at q1 q2 q5
      have hq1 : q.state =
          { s with
            buffer_size := roundUp4096 cfg.frameSize, mapped_capture_buffers := m,
            mapped_capture_buffer_strides := ms,
            capture_frame_buffers := assignVec s.capture_frame_buffers cfg.stream a.1,
            capture_requests := s.capture_requests ++ news } := by
        rw [q1, a2]
      have hq2 : q.trace = tr ++ (evs ++ evs2) := by rw [q2, a3, List.append_assoc]
      have hq3 : ∀ r ∈ news, r.controls = requestControls s := by
        intro r hr
        rw [q3 r hr, a2]
        rfl
      have hq4 : ∀ e ∈ evs ++ evs2, e.isSetup = true := by
        intro e he
        rcases List.mem_append.1 he with he | he
        · exact a4 e he
        · exact q4 e he
      have hfail : (∀ k i, env.createRequest k i = false) → countCreateRequests evs2 ≠ 0 →
          q.exit = some .returned ∧ Event.cerr "Can't create request" ∈ evs2 := by
        intro hreq hcnt
        cases hl : lookupVec (assignVec a.2.state.capture_frame_buffers cfg.stream a.1)
            cfg.stream with
        | nil =>
          rw [hl] at hq
          have : q.trace = a.2.trace := by rw [hq]; simp [makeRequests]
          rw [q2] at this
          have : evs2 = [] := by simpa using this
          rw [this] at hcnt
          exact absurd rfl hcnt
        | cons b bs =>
          rw [hl, makeRequests_no_request env k cfg.stream b bs 0 _ _ (hreq k 0)] at hq
          have h1 : q.trace = a.2.trace ++ [.createRequest, .cerr "Can't create request"] := by
            rw [hq]
          rw [q2] at h1
          have h2 : evs2 = [.createRequest, .cerr "Can't create request"] := by
            simpa using h1
          exact ⟨by rw [hq], by rw [h2]; simp⟩
      rcases q5 with ⟨qe, -, -⟩ | ⟨qe, qc⟩
      swap
      · -- a request could not be made
        refine ⟨news, roundUp4096 cfg.frameSize, m, ms,
          assignVec s.capture_frame_buffers cfg.stream a.1, evs ++ evs2, ?_, ?_, hq3, hq4,
          Or.inr (Or.inl ⟨by rw [c2 _ ae qe], ?_⟩), ?_⟩
        · rw [c2 _ ae qe]; exact hq1
        · rw [c2 _ ae qe]; exact hq2
        · rcases qc with qc | qc
          · exact Or.inl (List.mem_append_right _ qc)
          · exact Or.inr (List.mem_append_right _ qc)
        · intro hreq hcnt
          rw [countCreateRequests_append, a5, Nat.zero_add] at hcnt
          obtain ⟨f1, f2⟩ := hfail hreq hcnt
          exact ⟨by rw [c2 _ ae qe], List.mem_append_right _ f2⟩
      · obtain ⟨news3, bs3, m3, ms3, fb3, evs3, r1, r2, r3, r4, r5, r6⟩ :=
          ih (k + 1) q.state q.trace
        rw [c3 ae qe]
        refine ⟨news ++ news3, bs3, m3, ms3, fb3, evs ++ evs2 ++ evs3, ?_, ?_, ?_, ?_, ?_, ?_⟩
        · rw [r1, hq1]; simp
        · rw [r2, hq2]; simp
        · intro r hr
          rcases List.mem_append.1 hr with hr | hr
          · exact hq3 r hr
          · rw [r3 r hr, hq1]; rfl
        · intro e he
          rcases List.mem_append.1 he with he | he
          · exact hq4 e he
          · exact r4 e he
        · rcases r5 with r5 | ⟨r5, r5c⟩ | r5
          · exact Or.inl r5
          · refine Or.inr (Or.inl ⟨r5, ?_⟩)
            rcases r5c with h | h
            · exact Or.inl (List.mem_append_right _ h)
            · exact Or.inr (List.mem_append_right _ h)
          · exact Or.inr (Or.inr r5)
        · intro hreq hcnt
          by_cases h2 : countCreateRequests evs2 = 0
          · rw [countCreateRequests_append, countCreateRequests_append, a5, h2] at hcnt
            obtain ⟨f1, f2⟩ := r6 hreq (by simpa using hcnt)
            exact ⟨f1, List.mem_append_right _ f2⟩
          · rw [(hfail hreq h2).1] at qe
            cases qe

end Picam

namespace Picam

/-! ### start -/

/-- The control list of a request, by the auto-exposure flag. -/
theorem requestControls_eq (t : Session) :
    requestControls t =
      if t.ae_enable then
        [(.AeEnable, .bool true), (.AeMeteringMode, .int t.ae_metering_mode),
          (.AeConstraintMode, .int t.ae_constraint_mode),
          (.AeExposureMode, .int t.ae_exposure_mode),
          (.AnalogueGain, .float t.analog_gain), (.AwbEnable, .bool t.awb_enable),
          (.ColourGains, .floats [t.color_gains.getD 0 0, t.color_gains.getD 1 0]),
          (.Brightness, .float t.brightness), (.Contrast, .float t.contrast)]
      else
        [(.AeEnable, .bool false), (.ExposureTime, .int t.exposure_time),
          (.AnalogueGain, .float t.analog_gain), (.AwbEnable, .bool t.awb_enable),
          (.ColourGains, .floats [t.color_gains.getD 0 0, t.color_gains.getD 1 0]),
          (.Brightness, .float t.brightness), (.Contrast, .float t.contrast)] := by
  cases h : t.ae_enable <;> simp [requestControls, h, ControlList.set]

/-- What a request carries about exposure, by the auto-exposure flag. -/
theorem requestControls_exposure (t : Session) :
    (t.ae_enable = false →
        (requestControls t).get .AeEnable = some (.bool false) ∧
          (requestControls t).get .ExposureTime = some (.int t.exposure_time) ∧
          (requestControls t).contains .AeMeteringMode = false ∧
          (requestControls t).contains .AeConstraintMode = false ∧
          (requestControls t).contains .AeExposureMode = false) ∧
      (t.ae_enable = true →
        (requestControls t).get .AeEnable = some (.bool true) ∧
          (requestControls t).get .AeMeteringMode = some (.int t.ae_metering_mode) ∧
          (requestControls t).get .AeConstraintMode = some (.int t.ae_constraint_mode) ∧
          (requestControls t).get .AeExposureMode = some (.int t.ae_exposure_mode) ∧
          (requestControls t).contains .ExposureTime = false) := by
  constructor
  · intro h
    rw [requestControls_eq, h]
    exact ⟨rfl, rfl, rfl, rfl, rfl⟩
  · intro h
    rw [requestControls_eq, h]
    exact ⟨rfl, rfl, rfl, rfl, rfl⟩

/-- The three ways `start()` proceeds on a stopped session. -/
theorem start_cases (env : CameraEnv) (store : ParamStore) (s : Session)
    (hrun : s.running = false) :
    ∃ (p : Session) (v : ConfigStatus × CameraConfiguration) (c : Carry),
      p = prepare env store s ∧ v = env.validate (requestedConfiguration env p) ∧
      c = streamLoop env v.2.toList 0 { p with stride := v.2.first.stride }
        ([.acquire, .generateConfiguration, .validate] ++ [.configure]) ∧
      (v.1 = .Invalid → start env store s =
        ⟨p, [.acquire, .generateConfiguration, .validate],
          .threw "Failed to validate stream configurations"⟩) ∧
      (∀ r, v.1 ≠ .Invalid → c.exit = some r → start env store s = ⟨c.state, c.trace, r⟩) ∧
      (v.1 ≠ .Invalid → c.exit = none → start env store s = finishStart store c.state c.trace) := by
  refine ⟨_, _, _, rfl, rfl, rfl, ?_, ?_, ?_⟩
  · intro h
    simp only [start, hrun, h]
    simp
  · intro r h1 h2
    simp only [start, hrun, h1, h2]
    simp
  · intro h1 h2
    simp only [start, hrun, h1, h2]
    simp

end Picam

namespace Picam

/-- After `start()` on a stopped session the state is the prepared session with
new tables, publisher, message and encoder, and with requests appended that all
carry the controls of the prepared session. -/
theorem start_state (env : CameraEnv) (store : ParamStore) (s : Session)
    (hrun : s.running = false) :
    ∃ news str bs m ms fb pub msg e calls,
      (start env store s).state =
          { prepare env store s with
            stride := str, buffer_size := bs, mapped_capture_buffers := m,
            mapped_capture_buffer_strides := ms, capture_frame_buffers := fb,
            capture_requests := s.capture_requests ++ news, publisher := pub,
            outFrameMsg := msg, encoder := e, encoder_calls := calls } ∧
        ∀ r ∈ news, r.controls = requestControls (prepare env store s) := by
  obtain ⟨p, v, c, hp, hv, hc, c1, c2, c3⟩ := start_cases env store s hrun
  have hpr : p.capture_requests = s.capture_requests := by rw [hp]; rfl
  by_cases hinv : v.1 = .Invalid
  · refine ⟨[], p.stride, p.buffer_size, p.mapped_capture_buffers,
      p.mapped_capture_buffer_strides, p.capture_frame_buffers, p.publisher, p.outFrameMsg,
      p.encoder, p.encoder_calls, ?_, by simp⟩
    rw [c1 hinv, List.append_nil, ← hpr, ← hp]
  · obtain ⟨news, bs, m, ms, fb, evs, r1, -, r3, -, -, -⟩ := streamLoop_spec env v.2.toList 0
      { p with stride := v.2.first.stride }
      ([.acquire, .generateConfiguration, .validate] ++ [.configure])
    rw [← hc] at r1
    have hctl : ∀ r ∈ news, r.controls = requestControls (prepare env store s) := by
      intro r hr
      rw [r3 r hr, ← hp]
      rfl
    cases hex : c.exit with
    | some r =>
      refine ⟨news, v.2.first.stride, bs, m, ms, fb, p.publisher, p.outFrameMsg, p.encoder,
        p.encoder_calls, ?_, hctl⟩
      rw [c2 r hinv hex, r1, ← hp]
      show _ = { p with
        stride := v.2.first.stride, buffer_size := bs, mapped_capture_buffers := m,
        mapped_capture_buffer_strides := ms, capture_frame_buffers := fb,
        capture_requests := s.capture_requests ++ news, publisher := p.publisher,
        outFrameMsg := p.outFrameMsg, encoder := p.encoder, encoder_calls := p.encoder_calls }
      rw [← hpr]
    | none =>
      refine ⟨news, v.2.first.stride, bs, m, ms, fb,
        (finishStart store c.state c.trace).state.publisher,
        (finishStart store c.state c.trace).state.outFrameMsg,
        (finishStart store c.state c.trace).state.encoder,
        (finishStart store c.state c.trace).state.encoder_calls, ?_, hctl⟩
      have hfin : (finishStart store c.state c.trace).state =
          { c.state with
            publisher := (finishStart store c.state c.trace).state.publisher,
            outFrameMsg := (finishStart store c.state c.trace).state.outFrameMsg,
            encoder := (finishStart store c.state c.trace).state.encoder,
            encoder_calls := (finishStart store c.state c.trace).state.encoder_calls } := rfl
      rw [c3 hinv hex, hfin, r1, ← hp, ← hpr]

/-- C8. Every request `start()` builds carries the same control list.  When the
`ae_enable` read from the configuration is false, each carries AeEnable = false
and ExposureTime equal to the configured exposure time and none of
AeMeteringMode, AeConstraintMode, AeExposureMode; when it is true, each carries
those three auto-exposure controls and no ExposureTime. -/
theorem start_request_controls (env : CameraEnv) (store : ParamStore) (s : Session) :
    ∃ news, (start env store s).state.capture_requests = s.capture_requests ++ news ∧
      (∀ r ∈ news, ∀ r' ∈ news, r.controls = r'.controls) ∧
      (s.running = false →
        (start env store s).state.ae_enable =
            (store.bools (configPrefix (start env store s).state.location ++ "ae_enable")).getD
              false ∧
          (start env store s).state.exposure_time =
            toUint ((store.ints (configPrefix (start env store s).state.location ++
              "exposure_time_ns")).getD 10000)) ∧
      ∀ r ∈ news,
        ((start env store s).state.ae_enable = false →
          r.controls.get .AeEnable = some (.bool false) ∧
            r.controls.get .ExposureTime =
              some (.int (start env store s).state.exposure_time) ∧
            r.controls.contains .AeMeteringMode = false ∧
            r.controls.contains .AeConstraintMode = false ∧
            r.controls.contains .AeExposureMode = false) ∧
        ((start env store s).state.ae_enable = true →
          r.controls.get .AeEnable = some (.bool true) ∧
            r.controls.get .AeMeteringMode =
              some (.int (start env store s).state.ae_metering_mode) ∧
            r.controls.get .AeConstraintMode =
              some (.int (start env store s).state.ae_constraint_mode) ∧
            r.controls.get .AeExposureMode =
              some (.int (start env store s).state.ae_exposure_mode) ∧
            r.controls.contains .ExposureTime = false) := by
  cases hrun : s.running with
  | true =>
    refine ⟨[], by simp [start, hrun], by simp, by simp, by simp⟩
  | false =>
    obtain ⟨news, str, bs, m, ms, fb, pub, msg, e, calls, hst, hctl⟩ :=
      start_state env store s hrun
    refine ⟨news, by rw [hst], ?_, fun _ => ?_, ?_⟩
    · intro r hr r' hr'
      rw [hctl r hr, hctl r' hr']
    · rw [hst]
      exact ⟨rfl, rfl⟩
    · intro r hr
      rw [hctl r hr, hst]
      exact requestControls_exposure (prepare env store s)

/-- C10. The code at the failing input: on a camera that yields no request
(everything else as in `sampleEnv`), `start()` does not fail with an error as
it does for a failed validation or allocation; it writes to `cerr` and returns
normally.  The completion callback is not connected, the camera is not started,
no request is queued and the running flag stays set. -/
theorem start_returns_without_request :
    (start { sampleEnv with createRequest := fun _ _ => false } emptyStore idleSession).result =
        .returned ∧
      (start { sampleEnv with createRequest := fun _ _ => false } emptyStore idleSession).trace =
        [.acquire, .generateConfiguration, .validate, .configure,
          .dmaAlloc "pica-ros2-0" 3112960, .mmap 10 3112960,
          .dmaAlloc "pica-ros2-1" 3112960, .mmap 11 3112960,
          .dmaAlloc "pica-ros2-2" 3112960, .mmap 12 3112960,
          .dmaAlloc "pica-ros2-3" 3112960, .mmap 13 3112960,
          .createRequest, .cerr "Can't create request"] ∧
      (start { sampleEnv with createRequest := fun _ _ => false } emptyStore
        idleSession).state.running = true := by
  decide

end Picam

namespace Picam

/-- C8 on the sample camera: without overrides (`ae_enable` false, exposure time
10000) the four requests carry the fixed exposure time and no auto-exposure
control; with every boolean parameter overridden to true they carry the three
auto-exposure controls and no exposure time. -/
theorem start_request_controls_witness :
    (∃ news, (start sampleEnv emptyStore idleSession).state.capture_requests = [] ++ news ∧
        news.length = 4 ∧
        ∀ r ∈ news, r.controls.get .AeEnable = some (.bool false) ∧
          r.controls.get .ExposureTime = some (.int 10000) ∧
          r.controls.contains .AeMeteringMode = false ∧
          r.controls.contains .AeConstraintMode = false ∧
          r.controls.contains .AeExposureMode = false) ∧
      ∃ news,
        (start sampleEnv { emptyStore with bools := fun _ => some true }
          idleSession).state.capture_requests = [] ++ news ∧
        news.length = 4 ∧
        ∀ r ∈ news, r.controls.get .AeEnable = some (.bool true) ∧
          r.controls.get .AeMeteringMode = some (.int 0) ∧
          r.controls.get .AeConstraintMode = some (.int 0) ∧
          r.controls.get .AeExposureMode = some (.int 0) ∧
          r.controls.contains .ExposureTime = false := by
  constructor
  · obtain ⟨news, h1, -, -, h4⟩ := start_request_controls sampleEnv emptyStore idleSession
    have hae : (start sampleEnv emptyStore idleSession).state.ae_enable = false := by decide
    have hex : (start sampleEnv emptyStore idleSession).state.exposure_time = 10000 := by
      decide
    have hlen : (start sampleEnv emptyStore idleSession).state.capture_requests.length = 4 := by
      decide
    have h1' : (start sampleEnv emptyStore idleSession).state.capture_requests = [] ++ news :=
      h1
    refine ⟨news, h1', ?_, fun r hr => ?_⟩
    · rw [h1'] at hlen
      simpa using hlen
    · have := (h4 r hr).1 hae
      rw [hex] at this
      exact this
  · obtain ⟨news, h1, -, -, h4⟩ := start_request_controls sampleEnv
      { emptyStore with bools := fun _ => some true } idleSession
    have hae : (start sampleEnv { emptyStore with bools := fun _ => some true }
        idleSession).state.ae_enable = true := by decide
    have hm : (start sampleEnv { emptyStore with bools := fun _ => some true }
        idleSession).state.ae_metering_mode = 0 := by decide
    have hc : (start sampleEnv { emptyStore with bools := fun _ => some true }
        idleSession).state.ae_constraint_mode = 0 := by decide
    have he : (start sampleEnv { emptyStore with bools := fun _ => some true }
        idleSession).state.ae_exposure_mode = 0 := by decide
    have hlen : (start sampleEnv { emptyStore with bools := fun _ => some true }
        idleSession).state.capture_requests.length = 4 := by decide
    have h1' : (start sampleEnv { emptyStore with bools := fun _ => some true }
        idleSession).state.capture_requests = [] ++ news := h1
    refine ⟨news, h1', ?_, fun r hr => ?_⟩
    · rw [h1'] at hlen
      simpa using hlen
    · have := (h4 r hr).2 hae
      rw [hm, hc, he] at this
      exact this

theorem countCreateRequests_pos (evs : List Event) (h : Event.createRequest ∈ evs) :
    countCreateRequests evs ≠ 0 := by
  unfold countCreateRequests
  intro h0
  have hmem : Event.createRequest ∈ evs.filter (fun e => match e with
      | .createRequest => true
      | _ => false) := List.mem_filter.2 ⟨h, rfl⟩
  rw [List.length_eq_zero.1 h0] at hmem
  cases hmem

/-- The exits of `start()`.  It throws only for a configuration that fails
validation and for a buffer allocation that fails.  When the camera yields no
request, the first call of `createRequest` makes `start()` write "Can't create
request" to `cerr` and return normally: the completion callback is not
connected, the camera is not started, no request is queued, and the running flag
stays set. -/
theorem start_without_request_returns (env : CameraEnv) (store : ParamStore) (s : Session)
    (hrun : s.running = false) (hreq : ∀ k i, env.createRequest k i = false) :
    ((start env store s).result = .returned ∨
        (start env store s).result = .threw "Failed to validate stream configurations" ∨
        (start env store s).result = .threw "Failed to allocate capture buffers for stream") ∧
      (Event.createRequest ∈ (start env store s).trace →
        (start env store s).result = .returned ∧
          Event.cerr "Can't create request" ∈ (start env store s).trace ∧
          Event.connectRequestCompleted ∉ (start env store s).trace ∧
          Event.cameraStart ∉ (start env store s).trace ∧
          (∀ r, Event.queueRequest r ∉ (start env store s).trace) ∧
          (start env store s).state.running = true) := by
  obtain ⟨p, v, c, hp, hv, hc, c1, c2, c3⟩ := start_cases env store s hrun
  by_cases hinv : v.1 = .Invalid
  · rw [c1 hinv]
    exact ⟨Or.inr (Or.inl rfl), fun h => by simp at h⟩
  · obtain ⟨news, bs, m, ms, fb, evs, r1, r2, -, r4, r5, r6⟩ := streamLoop_spec env v.2.toList 0
      { p with stride := v.2.first.stride }
      ([.acquire, .generateConfiguration, .validate] ++ [.configure])
    rw [← hc] at r1 r2 r5 r6
    have hsetup : ∀ e : Event, e.isSetup = false →
        e ∉ [Event.acquire, .generateConfiguration, .validate, .configure] →
        e ∈ c.trace → False := by
      intro e he hne hmem
      rw [r2] at hmem
      rcases List.mem_append.1 hmem with h | h
      · exact hne h
      · rw [r4 e h] at he
        cases he
    have hcreate : Event.createRequest ∈ c.trace →
        c.exit = some .returned ∧ Event.cerr "Can't create request" ∈ c.trace := by
      intro hmem
      rw [r2] at hmem ⊢
      rcases List.mem_append.1 hmem with h | h
      · simp at h
      · obtain ⟨f1, f2⟩ := r6 hreq (countCreateRequests_pos evs h)
        exact ⟨f1, List.mem_append_right _ f2⟩
    have hrunning : c.state.running = true := by rw [r1, hp]; rfl
    cases hex : c.exit with
    | some r =>
      rw [c2 r hinv hex]
      refine ⟨?_, fun hmem => ?_⟩
      · rw [hex] at r5
        rcases r5 with r5 | ⟨r5, -⟩ | r5
        · cases r5
        · exact Or.inl (Option.some.inj r5)
        · exact Or.inr (Or.inr (Option.some.inj r5))
      · obtain ⟨f1, f2⟩ := hcreate hmem
        rw [hex] at f1
        exact ⟨Option.some.inj f1, f2,
          fun h => hsetup Event.connectRequestCompleted rfl (by simp) h,
          fun h => hsetup Event.cameraStart rfl (by simp) h,
          fun q h => hsetup (Event.queueRequest q) rfl (by simp) h, hrunning⟩
    | none =>
      rw [c3 hinv hex]
      refine ⟨Or.inl rfl, fun hmem => ?_⟩
      exfalso
      simp only [finishStart, List.mem_append, List.mem_map] at hmem
      rcases hmem with (h | h) | ⟨r, -, h⟩
      · rw [(hcreate h).1] at hex
        cases hex
      · simp at h
      · cases h

/-- The exits of `start()` on the sample camera with `createRequest` failing. -/
theorem start_without_request_returns_witness :
    (start { sampleEnv with createRequest := fun _ _ => false } emptyStore idleSession).result =
        .returned ∧
      Event.cameraStart ∉
        (start { sampleEnv with createRequest := fun _ _ => false } emptyStore
          idleSession).trace ∧
      (start { sampleEnv with createRequest := fun _ _ => false } emptyStore
        idleSession).state.running = true :=
  have h := (start_without_request_returns
    { sampleEnv with createRequest := fun _ _ => false } emptyStore idleSession rfl
    (fun _ _ => rfl)).2 (by decide)
  ⟨h.1, h.2.2.2.1, h.2.2.2.2.2⟩

end Picam

namespace Picam

theorem lookup_map_assign {α : Type} (k : Nat) (v : List α) (m : List (Nat × List α))
    (h : m.any (fun e => e.1 = k) = true) :
    (m.map (fun e => if e.1 = k then (k, v) else e)).lookup k = some v := by
  induction m with
  | nil => simp at h
  | cons e rest ih =>
    by_cases he : e.1 = k
    · rw [List.map_cons, if_pos he, List.lookup_cons]
      simp
    · have hne : (k == e.1) = false := by
        simpa using fun h' : k = e.1 => he h'.symm
      have hrest : rest.any (fun e => e.1 = k) = true := by
        simpa [List.any_cons, he] using h
      rw [List.map_cons, if_neg he]
      obtain ⟨a, b⟩ := e
      rw [List.lookup_cons, hne]
      exact ih hrest

theorem lookup_append_new {α : Type} (k : Nat) (v : List α) (m : List (Nat × List α))
    (h : m.any (fun e => e.1 = k) = false) : (m ++ [(k, v)]).lookup k = some v := by
  induction m with
  | nil => simp [List.lookup]
  | cons e rest ih =>
    obtain ⟨a, b⟩ := e
    have hab : ¬ a = k := by
      intro hk
      simp [List.any_cons, hk] at h
    have hne : (k == a) = false := by
      simpa using fun h' : k = a => hab h'.symm
    have hrest : rest.any (fun e => e.1 = k) = false := by
      simpa [List.any_cons, hab] using h
    rw [List.cons_append, List.lookup_cons, hne]
    exact ih hrest

/-- Reading back the vector just assigned to a key. -/
theorem lookupVec_assignVec {α : Type} (m : List (Nat × List α)) (k : Nat) (v : List α) :
    lookupVec (assignVec m k v) k = v := by
  unfold lookupVec assignVec
  cases h : m.any (fun e => e.1 = k) with
  | true => simp only [if_true]; rw [lookup_map_assign k v m h]; rfl
  | false =>
    simp only [Bool.false_eq_true, if_false]
    rw [lookup_append_new k v m h]
    rfl

end Picam

namespace Picam

/-- C9. `start()` asks the camera for the configured width, height and buffer
count (`buffer_count`, read from the store, 4 by default).  When `start()` on a
stopped session that holds no request gets back a single-stream configuration
with buffer count `n` and goes on to start the camera, then: the stream has
exactly `n` capture buffers, with pairwise distinct identities; there are
exactly `n` requests, the i-th holding the i-th buffer and nothing else; all `n`
allocations and all `n` calls of `createRequest` precede the start of the
camera; and after the start every request is queued, in order.  When the camera
keeps the buffer count it was asked for, `n` is the configured `buffer_count`. -/
theorem start_builds_buffers_and_requests (env : CameraEnv) (store : ParamStore)
    (s : Session) (v : ConfigStatus × CameraConfiguration) (hrun : s.running = false)
    (hfresh : s.capture_requests = [])
    (hv : v = env.validate (requestedConfiguration env (prepare env store s)))
    (hsingle : v.2.rest = []) (hstarted : Event.cameraStart ∈ (start env store s).trace) :
    (lookupVec (start env store s).state.capture_frame_buffers v.2.first.stream).length =
        v.2.first.bufferCount ∧
      ((lookupVec (start env store s).state.capture_frame_buffers v.2.first.stream).map
        FrameBuffer.id).Nodup ∧
      (start env store s).state.capture_requests.length = v.2.first.bufferCount ∧
      (start env store s).state.capture_requests.map Request.buffers =
        (lookupVec (start env store s).state.capture_frame_buffers v.2.first.stream).map
          (fun b => [(v.2.first.stream, b)]) ∧
      ((requestedConfiguration env (prepare env store s)).first.width =
          (start env store s).state.width ∧
        (requestedConfiguration env (prepare env store s)).first.height =
          (start env store s).state.height ∧
        (requestedConfiguration env (prepare env store s)).first.bufferCount =
          (start env store s).state.buffer_count ∧
        (start env store s).state.buffer_count =
          toUint ((store.ints (configPrefix (start env store s).state.location ++
            "buffer_count")).getD 4)) ∧
      (v.2.first.bufferCount = (start env store s).state.buffer_count →
        (lookupVec (start env store s).state.capture_frame_buffers v.2.first.stream).length =
            (start env store s).state.buffer_count ∧
          (start env store s).state.capture_requests.length =
            (start env store s).state.buffer_count) ∧
      ∃ pre topic hw,
        (start env store s).trace =
          pre ++ [.createPublisher topic, .createEncoder hw, .connectRequestCompleted,
            .cameraStart] ++
            (start env store s).state.capture_requests.map (fun r => .queueRequest r.id) ∧
        countAllocs pre = v.2.first.bufferCount ∧
        countCreateRequests pre = v.2.first.bufferCount ∧
        Event.cameraStart ∉ pre ∧ ∀ r, Event.queueRequest r ∉ pre := by
  obtain ⟨news0, str0, bs0, m0, ms0, fb0, pub0, msg0, e0, calls0, hst0, -⟩ :=
    start_state env store s hrun
  have htie : (requestedConfiguration env (prepare env store s)).first.width =
        (start env store s).state.width ∧
      (requestedConfiguration env (prepare env store s)).first.height =
        (start env store s).state.height ∧
      (requestedConfiguration env (prepare env store s)).first.bufferCount =
        (start env store s).state.buffer_count ∧
      (start env store s).state.buffer_count =
        toUint ((store.ints (configPrefix (start env store s).state.location ++
          "buffer_count")).getD 4) := by
    rw [hst0]
    exact ⟨rfl, rfl, rfl, rfl⟩
  suffices hmain : (lookupVec (start env store s).state.capture_frame_buffers v.2.first.stream).length =
        v.2.first.bufferCount ∧
      ((lookupVec (start env store s).state.capture_frame_buffers v.2.first.stream).map
        FrameBuffer.id).Nodup ∧
      (start env store s).state.capture_requests.length = v.2.first.bufferCount ∧
      (start env store s).state.capture_requests.map Request.buffers =
        (lookupVec (start env store s).state.capture_frame_buffers v.2.first.stream).map
          (fun b => [(v.2.first.stream, b)]) ∧
      ∃ pre topic hw,
        (start env store s).trace =
          pre ++ [.createPublisher topic, .createEncoder hw, .connectRequestCompleted,
            .cameraStart] ++
            (start env store s).state.capture_requests.map (fun r => .queueRequest r.id) ∧
        countAllocs pre = v.2.first.bufferCount ∧
        countCreateRequests pre = v.2.first.bufferCount ∧
        Event.cameraStart ∉ pre ∧ ∀ r, Event.queueRequest r ∉ pre from
    ⟨hmain.1, hmain.2.1, hmain.2.2.1, hmain.2.2.2.1, htie,
      fun hkeep => ⟨by rw [← hkeep]; exact hmain.1, by rw [← hkeep]; exact hmain.2.2.1⟩,
      hmain.2.2.2.2⟩
  clear htie hst0
  obtain ⟨p, v', c, hp, hv', hc, c1, c2, c3⟩ := start_cases env store s hrun
  have hvv : v' = v := by rw [hv', hv, hp]
  subst hvv
  have hlist : v'.2.toList = [v'.2.first] := by
    rw [CameraConfiguration.toList, hsingle]
  rw [hlist] at hc
  have hinv : v'.1 ≠ .Invalid := by
    intro h
    rw [c1 h] at hstarted
    simp at hstarted
  obtain ⟨a, q, ha, hq, d1, d2, d3⟩ := streamLoop_cons env v'.2.first [] 0
    { p with stride := v'.2.first.stride }
    ([.acquire, .generateConfiguration, .validate] ++ [.configure])
  rw [← hc] at d1 d2 d3
  obtain ⟨bufs, m, ms, evs, a1, a2, a3, a4, a5, -, -, a8, a9⟩ :=
    allocBuffers_spec env 0 v'.2.first.bufferCount 0 []
      { p with stride := v'.2.first.stride, buffer_size := roundUp4096 v'.2.first.frameSize }
      ([.acquire, .generateConfiguration, .validate] ++ [.configure])
  rw [← ha] at a1 a2 a3 a9
  obtain ⟨news, evs2, q1, q2, -, q4, q4a, q5⟩ := makeRequests_spec env 0 v'.2.first.stream
    (lookupVec (assignVec a.2.state.capture_frame_buffers v'.2.first.stream a.1)
      v'.2.first.stream) 0
    { a.2.state with
      capture_frame_buffers :=
        assignVec a.2.state.capture_frame_buffers v'.2.first.stream a.1 }
    a.2.trace
  rw [← hq] at q1 q2 q5
  rw [lookupVec_assignVec] at q5
  have hq2 : q.trace =
      [.acquire, .generateConfiguration, .validate, .configure] ++ (evs ++ evs2) := by
    rw [q2, a3]; simp
  have hnot : ∀ e : Event, e.isSetup = false →
      e ∉ [Event.acquire, .generateConfiguration, .validate, .configure] →
      e ∉ [Event.acquire, .generateConfiguration, .validate, .configure] ++ (evs ++ evs2) := by
    intro e he hne hmem
    rcases List.mem_append.1 hmem with h | h
    · exact hne h
    · rcases List.mem_append.1 h with h | h
      · rw [a4 e h] at he; cases he
      · rw [q4 e h] at he; cases he
  have ha3 : a.2.trace ⊆ q.trace := by
    intro e he
    rw [q2]
    exact List.mem_append_left _ he
  -- both inner loops ended normally, because the camera was started
  have hae : a.2.exit = none := by
    cases hex : a.2.exit with
    | none => rfl
    | some r =>
      exfalso
      rw [c2 r hinv (by rw [d1 r hex]), d1 r hex] at hstarted
      exact hnot Event.cameraStart rfl (by simp) (hq2 ▸ ha3 hstarted)
  have hqe : q.exit = none := by
    cases hex : q.exit with
    | none => rfl
    | some r =>
      exfalso
      rw [c2 r hinv (by rw [d2 r hae hex]), d2 r hae hex] at hstarted
      exact hnot Event.cameraStart rfl (by simp) (hq2 ▸ hstarted)
  have hcq : c = ⟨q.state, q.trace, none⟩ := by
    rw [d3 hae hqe]; simp [streamLoop]
  have hstart : start env store s = finishStart store q.state q.trace := by
    rw [c3 hinv (by rw [hcq]), hcq]
  rcases a9 with ⟨-, alen, acnt⟩ | ae
  swap
  · rw [hae] at ae; cases ae
  rcases q5 with ⟨-, qbuf, qcnt⟩ | ⟨qe, -⟩
  swap
  · rw [hqe] at qe; cases qe
  have hbufs : a.1 = bufs := by rw [a1]; simp
  have hfb : (finishStart store q.state q.trace).state.capture_frame_buffers =
      assignVec a.2.state.capture_frame_buffers v'.2.first.stream a.1 := by
    rw [finishStart, q1]
  have hrq : (finishStart store q.state q.trace).state.capture_requests = news := by
    have hpr : p.capture_requests = [] := by rw [hp, ← hfresh]; rfl
    rw [finishStart]
    show q.state.capture_requests = news
    rw [q1, a2]
    show p.capture_requests ++ news = news
    rw [hpr, List.nil_append]
  have hlen : news.length = bufs.length := by
    have := congrArg List.length qbuf
    rw [List.length_map, List.length_map, hbufs] at this
    exact this
  rw [hstart, hfb, lookupVec_assignVec, hrq, hbufs]
  refine ⟨alen, a8, by rw [hlen, alen], by rw [qbuf, hbufs], q.trace,
    store.topic_prefix ++ toString q.state.location ++ "/" ++ q.state.model,
    q.state.hw_encoder, ?_, ?_, ?_, ?_, ?_⟩
  · rw [finishStart]
    show _ ++ List.map _ q.state.capture_requests = _
    have : q.state.capture_requests = news := by
      rw [← hrq, finishStart]
    rw [this]
  · rw [hq2, countAllocs_append, countAllocs_append, acnt, q4a]
    simp [countAllocs]
  · rw [hq2, countCreateRequests_append, countCreateRequests_append, a5, qcnt, hbufs, alen]
    simp [countCreateRequests]
  · rw [hq2]
    exact hnot Event.cameraStart rfl (by simp)
  · intro r
    rw [hq2]
    exact hnot (Event.queueRequest r) rfl (by simp)

end Picam

namespace Picam

/-- C9 on the sample camera, which generates a stream with four buffers and keeps
what it is asked for.  Without overrides (1920x1080, `buffer_count` 4): four
pairwise distinct buffers, four requests, the camera started.  With
`buffer_count` overridden to 2: two buffers and two requests. -/
theorem start_builds_buffers_and_requests_witness :
    (Event.cameraStart ∈ (start sampleEnv emptyStore idleSession).trace ∧
      (start sampleEnv emptyStore idleSession).state.width = 1920 ∧
      (start sampleEnv emptyStore idleSession).state.height = 1080 ∧
      (start sampleEnv emptyStore idleSession).state.buffer_count = 4 ∧
      (lookupVec (start sampleEnv emptyStore idleSession).state.capture_frame_buffers 0).length =
        4 ∧
      ((lookupVec (start sampleEnv emptyStore idleSession).state.capture_frame_buffers 0).map
        FrameBuffer.id).Nodup ∧
      (start sampleEnv emptyStore idleSession).state.capture_requests.length = 4 ∧
      (start sampleEnv emptyStore idleSession).state.capture_requests.map Request.buffers =
        (lookupVec (start sampleEnv emptyStore idleSession).state.capture_frame_buffers 0).map
          (fun b => [(0, b)])) ∧
    ((start sampleEnv twoBufferStore idleSession).state.buffer_count = 2 ∧
      (lookupVec (start sampleEnv twoBufferStore idleSession).state.capture_frame_buffers
        0).length = 2 ∧
      (start sampleEnv twoBufferStore idleSession).state.capture_requests.length = 2) :=
  have hs : Event.cameraStart ∈ (start sampleEnv emptyStore idleSession).trace := by decide
  have h := start_builds_buffers_and_requests sampleEnv emptyStore idleSession
    (sampleEnv.validate (requestedConfiguration sampleEnv (prepare sampleEnv emptyStore
      idleSession))) rfl rfl rfl rfl hs
  have hs2 : Event.cameraStart ∈ (start sampleEnv twoBufferStore idleSession).trace := by
    decide
  have h2 := start_builds_buffers_and_requests sampleEnv twoBufferStore idleSession
    (sampleEnv.validate (requestedConfiguration sampleEnv (prepare sampleEnv twoBufferStore
      idleSession))) rfl rfl rfl rfl hs2
  have hb2 : (start sampleEnv twoBufferStore idleSession).state.buffer_count = 2 := by decide
  have hk2 := h2.2.2.2.2.2.1 (by decide)
  ⟨⟨hs, by decide, by decide, by decide, h.1, h.2.1, h.2.2.1, h.2.2.2.1⟩,
    ⟨hb2, by rw [← hb2]; exact hk2.1, by rw [← hb2]; exact hk2.2⟩⟩

end Picam

namespace Picam

/-! ### The plane tables -/

theorem any_key_false {α : Type} (m : List (Nat × α)) (k : Nat) (h : k ∉ m.map Prod.fst) :
    m.any (fun e => e.1 = k) = false := by
  cases hany : m.any (fun e => e.1 = k) with
  | false => rfl
  | true =>
    exfalso
    obtain ⟨e, he, hk⟩ := List.any_eq_true.1 hany
    exact h (List.mem_map.2 ⟨e, he, by simpa using hk⟩)

/-- Reading the entry of a key that was just created by `push_back`. -/
theorem lookupVec_pushBackAll_new {α : Type} (m : List (Nat × List α)) (k : Nat)
    (vs : List α) (h : k ∉ m.map Prod.fst) : lookupVec (pushBackAll m k vs) k = vs := by
  have hany := any_key_false m k h
  unfold lookupVec pushBackAll
  simp only [hany, Bool.false_eq_true, if_false]
  rw [lookup_append_new k vs m hany]
  rfl

theorem lookup_map_other {α : Type} (k k' : Nat) (vs : List α) (h : k' ≠ k)
    (m : List (Nat × List α)) :
    (m.map (fun e => if e.1 = k then (k, e.2 ++ vs) else e)).lookup k' = m.lookup k' := by
  induction m with
  | nil => rfl
  | cons e rest ih =>
    obtain ⟨a, b⟩ := e
    by_cases hak : a = k
    · have hne : (k' == a) = false := by simpa [hak] using h
      have hne' : (k' == k) = false := by simpa using h
      simp only [List.map_cons, hak, if_true, List.lookup_cons, hne']
      rw [← hak] at ih ⊢
      simpa [hak] using ih
    · simp only [List.map_cons, hak, if_false, List.lookup_cons]
      rw [ih]

theorem lookup_append_other {α : Type} (k k' : Nat) (vs : List α) (h : k' ≠ k)
    (m : List (Nat × List α)) : (m ++ [(k, vs)]).lookup k' = m.lookup k' := by
  induction m with
  | nil =>
    have hne' : (k' == k) = false := by simpa using h
    simp [List.lookup, hne']
  | cons e rest ih =>
    obtain ⟨a, b⟩ := e
    simp only [List.cons_append, List.lookup_cons]
    rw [ih]

/-- A `push_back` under one key leaves the entries of the other keys alone. -/
theorem lookupVec_pushBackAll_other {α : Type} (m : List (Nat × List α)) (k k' : Nat)
    (vs : List α) (h : k' ≠ k) : lookupVec (pushBackAll m k vs) k' = lookupVec m k' := by
  unfold lookupVec pushBackAll
  split
  · rw [lookup_map_other k k' vs h m]
  · rw [lookup_append_other k k' vs h m]

theorem pushBackAll_keys_sub {α : Type} (m : List (Nat × List α)) (k : Nat) (vs : List α) :
    ∀ x ∈ (pushBackAll m k vs).map Prod.fst, x ∈ m.map Prod.fst ∨ x = k := by
  intro x hx
  unfold pushBackAll at hx
  split at hx
  · have hmap : (m.map (fun e => if e.1 = k then (k, e.2 ++ vs) else e)).map Prod.fst =
        m.map Prod.fst := by
      rw [List.map_map]
      apply List.map_congr_left
      intro e _
      by_cases he : e.1 = k <;> simp [he]
    rw [hmap] at hx
    exact Or.inl hx
  · rw [List.map_append] at hx
    rcases List.mem_append.1 hx with h | h
    · exact Or.inl h
    · exact Or.inr (by simpa using h)

end Picam

namespace Picam

/-- The buffer loop leaves, for every buffer of its vector, exactly the derived
planes in `mapped_capture_buffers` (each plane at `memory + offset`) and their
strides in `mapped_capture_buffer_strides`. -/
theorem allocBuffers_tables (env : CameraEnv) (k : Nat) (todo : Nat) :
    ∀ (i : Nat) (bufs : List FrameBuffer) (s : Session) (tr : List Event),
      (∀ x ∈ s.mapped_capture_buffer_strides.map Prod.fst,
        x ∈ s.mapped_capture_buffers.map Prod.fst) →
      (∀ b ∈ bufs, b.id ∈ s.mapped_capture_buffers.map Prod.fst ∧
        lookupVec s.mapped_capture_buffers b.id =
          (derivePlanes s.stride s.height).map
            (fun p => ⟨env.mmap b.fd s.buffer_size, p.offset, p.length⟩) ∧
        lookupVec s.mapped_capture_buffer_strides b.id =
          (derivePlanes s.stride s.height).map PlaneView.stride) →
      ∀ b ∈ (allocBuffers env k todo i bufs s tr).1,
        lookupVec (allocBuffers env k todo i bufs s tr).2.state.mapped_capture_buffers b.id =
            (derivePlanes s.stride s.height).map
              (fun p => ⟨env.mmap b.fd s.buffer_size, p.offset, p.length⟩) ∧
          lookupVec (allocBuffers env k todo i bufs s tr).2.state.mapped_capture_buffer_strides
              b.id =
            (derivePlanes s.stride s.height).map PlaneView.stride := by
  induction todo with
  | zero =>
    intro i bufs s tr _ hb b hmem
    simp only [allocBuffers] at hmem ⊢
    exact (hb b hmem).2
  | succ n ih =>
    intro i bufs s tr hkeys hb b hmem
    cases ha : env.alloc k i s.buffer_size with
    | none =>
      simp only [allocBuffers, ha] at hmem ⊢
      exact (hb b hmem).2
    | some fd =>
      obtain ⟨fb, hfb⟩ : ∃ fb : FrameBuffer, fb =
          ⟨freshKey s.mapped_capture_buffers, fd, 0, s.buffer_size⟩ := ⟨_, rfl⟩
      obtain ⟨s1, hs1⟩ : ∃ s1 : Session, s1 =
          { s with
            mapped_capture_buffers :=
              pushBackAll s.mapped_capture_buffers fb.id
                ((derivePlanes s.stride s.height).map
                  (fun p => ⟨env.mmap fd s.buffer_size, p.offset, p.length⟩))
            mapped_capture_buffer_strides :=
              pushBackAll s.mapped_capture_buffer_strides fb.id
                ((derivePlanes s.stride s.height).map PlaneView.stride) } := ⟨_, rfl⟩
      have hstep : allocBuffers env k (n + 1) i bufs s tr =
          allocBuffers env k n (i + 1) (bufs ++ [fb]) s1
            (tr ++ [.dmaAlloc ("pica-ros2-" ++ toString i) s.buffer_size] ++
              [.mmap fd s.buffer_size]) := by
        simp [allocBuffers, ha, hfb, hs1]
      have hm1 : s1.mapped_capture_buffers = pushBackAll s.mapped_capture_buffers fb.id
          ((derivePlanes s.stride s.height).map
            (fun p => (⟨env.mmap fd s.buffer_size, p.offset, p.length⟩ : AVBuffer))) := by
        rw [hs1]
      have hm2 : s1.mapped_capture_buffer_strides =
          pushBackAll s.mapped_capture_buffer_strides fb.id
            ((derivePlanes s.stride s.height).map PlaneView.stride) := by
        rw [hs1]
      have hst : s1.stride = s.stride ∧ s1.height = s.height ∧
          s1.buffer_size = s.buffer_size := by
        rw [hs1]; exact ⟨rfl, rfl, rfl⟩
      have hfd : fb.fd = fd := by rw [hfb]
      have hfresh : fb.id ∉ s.mapped_capture_buffers.map Prod.fst := by
        rw [hfb]; exact freshKey_not_mem _
      have hfresh2 : fb.id ∉ s.mapped_capture_buffer_strides.map Prod.fst :=
        fun h => hfresh (hkeys _ h)
      have hkeys1 : ∀ x ∈ s1.mapped_capture_buffer_strides.map Prod.fst,
          x ∈ s1.mapped_capture_buffers.map Prod.fst := by
        intro x hx
        rw [hm2] at hx
        rw [hm1]
        rcases pushBackAll_keys_sub _ _ _ x hx with h | h
        · exact (pushBackAll_keys _ _ _).2 x (hkeys x h)
        · rw [h]; exact (pushBackAll_keys _ _ _).1
      have hb1 : ∀ b ∈ bufs ++ [fb], b.id ∈ s1.mapped_capture_buffers.map Prod.fst ∧
          lookupVec s1.mapped_capture_buffers b.id =
            (derivePlanes s1.stride s1.height).map
              (fun p => ⟨env.mmap b.fd s1.buffer_size, p.offset, p.length⟩) ∧
          lookupVec s1.mapped_capture_buffer_strides b.id =
            (derivePlanes s1.stride s1.height).map PlaneView.stride := by
        intro b hb'
        rw [hst.1, hst.2.1, hst.2.2, hm1, hm2]
        rcases List.mem_append.1 hb' with h | h
        · obtain ⟨g1, g2, g3⟩ := hb b h
          have hne : b.id ≠ fb.id := fun he => hfresh (he ▸ g1)
          exact ⟨(pushBackAll_keys _ _ _).2 _ g1,
            by rw [lookupVec_pushBackAll_other _ _ _ _ hne, g2],
            by rw [lookupVec_pushBackAll_other _ _ _ _ hne, g3]⟩
        · have hbf : b = fb := by simpa using h
          rw [hbf, hfd]
          exact ⟨(pushBackAll_keys _ _ _).1, lookupVec_pushBackAll_new _ _ _ hfresh,
            lookupVec_pushBackAll_new _ _ _ hfresh2⟩
      rw [hstep] at hmem ⊢
      have := ih (i + 1) (bufs ++ [fb]) s1 _ hkeys1 hb1 b hmem
      rw [hst.1, hst.2.1, hst.2.2] at this
      exact this

end Picam

namespace Picam

/-- C1. For every stride and height (32-bit unsigned, integer division) the plane
loop of `start()` yields three plane views: plane 0 at offset 0 with length
`stride * height` and stride `stride`; plane 1 at offset `stride * height` with
length `(stride/2) * (height/2)` and stride `stride/2`; plane 2 at offset
`stride * height + (stride/2) * (height/2)` with the same length and stride as
plane 1.  Products and sums are those of `uint` arithmetic (first part);
whenever the offset of plane 2 fits 32 bits they are the exact products and
sums, each plane beginning where the previous one ends (second part).  For
every buffer the buffer loop allocates, these three views, placed at the mapped
address of the buffer, and their strides are what the two lookup tables hold
(third part). -/
theorem plane_layout (stride height : Nat) (env : CameraEnv) (k n : Nat) (s : Session)
    (tr : List Event) (hs : s.stride = stride) (hh : s.height = height)
    (hkeys : ∀ x ∈ s.mapped_capture_buffer_strides.map Prod.fst,
      x ∈ s.mapped_capture_buffers.map Prod.fst) :
    derivePlanes stride height =
        [⟨0, mulU32 stride height, stride⟩,
         ⟨mulU32 stride height, mulU32 (stride / 2) (height / 2), stride / 2⟩,
         ⟨addU32 (mulU32 stride height) (mulU32 (stride / 2) (height / 2)),
          mulU32 (stride / 2) (height / 2), stride / 2⟩] ∧
      (stride * height + (stride / 2) * (height / 2) < U32 →
        derivePlanes stride height =
          [⟨0, stride * height, stride⟩,
           ⟨stride * height, (stride / 2) * (height / 2), stride / 2⟩,
           ⟨stride * height + (stride / 2) * (height / 2),
            (stride / 2) * (height / 2), stride / 2⟩]) ∧
      ∀ b ∈ (allocBuffers env k n 0 [] s tr).1,
        lookupVec (allocBuffers env k n 0 [] s tr).2.state.mapped_capture_buffers b.id =
            (derivePlanes stride height).map
              (fun p => ⟨env.mmap b.fd s.buffer_size, p.offset, p.length⟩) ∧
          lookupVec (allocBuffers env k n 0 [] s tr).2.state.mapped_capture_buffer_strides
              b.id =
            [stride, stride / 2, stride / 2] := by
  refine ⟨derivePlanes_eq stride height, fun h => ?_, fun b hb => ?_⟩
  · have h0 : mulU32 stride height = stride * height :=
      Nat.mod_eq_of_lt (lt_of_le_of_lt (Nat.le_add_right _ _) h)
    have h1 : mulU32 (stride / 2) (height / 2) = (stride / 2) * (height / 2) :=
      Nat.mod_eq_of_lt (lt_of_le_of_lt (Nat.le_add_left _ _) h)
    have h2 : addU32 (stride * height) ((stride / 2) * (height / 2)) =
        stride * height + (stride / 2) * (height / 2) := Nat.mod_eq_of_lt h
    rw [derivePlanes_eq, h0, h1, h2]
  · obtain ⟨t1, t2⟩ := allocBuffers_tables env k n 0 [] s tr hkeys (by simp) b hb
    rw [hs, hh] at t1 t2
    refine ⟨t1, ?_⟩
    rw [t2, derivePlanes_eq]
    rfl

/-- C1 at stride 1920 and height 1080, for the four buffers of the sample
camera. -/
theorem plane_layout_witness :
    derivePlanes 1920 1080 =
        [⟨0, 1920 * 1080, 1920⟩,
         ⟨1920 * 1080, (1920 / 2) * (1080 / 2), 1920 / 2⟩,
         ⟨1920 * 1080 + (1920 / 2) * (1080 / 2), (1920 / 2) * (1080 / 2), 1920 / 2⟩] ∧
      ∀ b ∈ (allocBuffers sampleEnv 0 4 0 []
          { idleSession with stride := 1920, height := 1080, buffer_size := 3112960 } []).1,
        lookupVec (allocBuffers sampleEnv 0 4 0 []
            { idleSession with stride := 1920, height := 1080, buffer_size := 3112960 }
            []).2.state.mapped_capture_buffers b.id =
          (derivePlanes 1920 1080).map
            (fun p => ⟨sampleEnv.mmap b.fd 3112960, p.offset, p.length⟩) :=
  have h := plane_layout 1920 1080 sampleEnv 0 4
    { idleSession with stride := 1920, height := 1080, buffer_size := 3112960 } [] rfl rfl
    (fun x hx => absurd hx (List.not_mem_nil x))
  ⟨h.2.1 (by decide), fun b hb => (h.2.2 b hb).1⟩

/-- C2. The code at the failing input.  The configured height is 2160; the camera
adjusts the stream to 1920x1080 (status `Adjusted`, which `start()` accepts) and
reports stride 1920 and frame size 3110400 = 1920 * 1080 * 3 / 2.  `start()`
returns normally with buffers of 3112960 bytes and takes the stride from the
validated configuration, yet cuts each buffer with the configured
`this->height` = 2160: the three planes of the first buffer have lengths
4147200, 1036800 and 1036800, together 6220800 bytes, more than the buffer
holds. -/
theorem plane_sum_exceeds_buffer :
    (start adjustingEnv tallStore idleSession).result = .returned ∧
      (start adjustingEnv tallStore idleSession).state.buffer_size = roundUp4096 3110400 ∧
      roundUp4096 3110400 = 3112960 ∧
      lookupVec (start adjustingEnv tallStore idleSession).state.mapped_capture_buffers 1 =
        (derivePlanes 1920 2160).map (fun p => ⟨40960, p.offset, p.length⟩) ∧
      planeLengthSum (derivePlanes 1920 2160) = 6220800 ∧
      ¬ (planeLengthSum (derivePlanes 1920 2160) ≤ roundUp4096 3110400) := by
  decide

end Picam

namespace Picam

/-! ### Configuration defaults -/

/-- Without an override, `readConfig()` reads the declared default of
`exposure_time_ns`, which is 10000. -/
theorem readConfig_exposure_default (store : ParamStore) (s : Session)
    (h : store.ints (configPrefix s.location ++ "exposure_time_ns") = none) :
    (readConfig store s).exposure_time = 10000 := by
  simp only [readConfig, h, Option.getD_none]
  decide

/-- C11 as stated fails: with a store that holds no value for
`exposure_time_ns`, `readConfig()` reads an exposure time of 10000 (the default
passed to `declare_parameter`, commented "10 ms"), not 10,000,000, and with
`ae_enable` false every request `start()` builds carries ExposureTime = 10000. -/
theorem default_exposure_time_is_10000 :
    emptyStore.ints (configPrefix idleSession.location ++ "exposure_time_ns") = none ∧
      (readConfig emptyStore idleSession).exposure_time = 10000 ∧
      (readConfig emptyStore idleSession).exposure_time ≠ 10000000 ∧
      (start sampleEnv emptyStore idleSession).state.ae_enable = false ∧
      (start sampleEnv emptyStore idleSession).state.capture_requests.length = 4 ∧
      ∀ r ∈ (start sampleEnv emptyStore idleSession).state.capture_requests,
        r.controls.get .ExposureTime = some (.int 10000) := by
  decide

/-- C11, amended. When the store holds no value for `exposure_time_ns`, the
exposure time `readConfig()` reads is 10000 (the declared default, handed
unscaled to the ExposureTime control); `start()` keeps that value, and with
`ae_enable` false every request it builds carries ExposureTime = 10000. -/
theorem exposure_time_default (env : CameraEnv) (store : ParamStore) (s : Session)
    (hrun : s.running = false)
    (hnone : store.ints (configPrefix (env.location.getD s.location) ++
      "exposure_time_ns") = none) :
    (∀ s0 : Session, s0.location = env.location.getD s.location →
        (readConfig store s0).exposure_time = 10000) ∧
      (start env store s).state.exposure_time = 10000 ∧
      ∃ news, (start env store s).state.capture_requests = s.capture_requests ++ news ∧
        ((start env store s).state.ae_enable = false →
          ∀ r ∈ news, r.controls.get .ExposureTime = some (.int 10000)) := by
  have hprep : (prepare env store s).exposure_time = 10000 := by
    show (readConfig store _).exposure_time = 10000
    exact readConfig_exposure_default store _ hnone
  obtain ⟨news, str, bs, m, ms, fb, pub, msg, e, calls, hst, hctl⟩ :=
    start_state env store s hrun
  refine ⟨fun s0 h0 => readConfig_exposure_default store s0 (by rw [h0]; exact hnone), ?_,
    news, by rw [hst], ?_⟩
  · rw [hst]
    exact hprep
  · rw [hst]
    intro hae r hr
    have := ((requestControls_exposure (prepare env store s)).1 hae).2.1
    rw [hprep] at this
    rw [hctl r hr]
    exact this

/-- C11, amended, on the sample camera with a store without overrides. -/
theorem exposure_time_default_witness :
    (readConfig emptyStore idleSession).exposure_time = 10000 ∧
      (start sampleEnv emptyStore idleSession).state.exposure_time = 10000 ∧
      ∃ news, (start sampleEnv emptyStore idleSession).state.capture_requests = [] ++ news ∧
        news.length = 4 ∧ ∀ r ∈ news, r.controls.get .ExposureTime = some (.int 10000) := by
  obtain ⟨h1, h2, news, h3, h4⟩ :=
    exposure_time_default sampleEnv emptyStore idleSession rfl rfl
  have hlen : (start sampleEnv emptyStore idleSession).state.capture_requests.length = 4 := by
    decide
  have h3' : (start sampleEnv emptyStore idleSession).state.capture_requests = [] ++ news :=
    h3
  refine ⟨h1 idleSession rfl, h2, news, h3', ?_, h4 (by decide)⟩
  rw [h3'] at hlen
  simpa using hlen

/-! ### Message timestamp -/

/-- C13. For every nanosecond count `t` with `t / 10^9 < 2^31`, `getCurrentStamp`
yields `sec = t / 10^9` and `nanosec = t % 10^9`: `nanosec < 10^9` and
`sec * 10^9 + nanosec = t`.  `publish` stores exactly this pair in the message
stamp for every non-negative timestamp in that range. -/
theorem getCurrentStamp_split (t : Nat) (h : t / 10 ^ 9 < 2 ^ 31) :
    getCurrentStamp t = (((t / 10 ^ 9 : Nat) : Int), t % 10 ^ 9) ∧
      (getCurrentStamp t).2 < 10 ^ 9 ∧
      (getCurrentStamp t).1 * 10 ^ 9 + ((getCurrentStamp t).2 : Int) = (t : Int) ∧
      ∀ (s : Session) (a : PublishArgs), a.timestamp_ns = (t : Int) →
        (publish s a).1.outFrameMsg.stamp_sec = ((t / 10 ^ 9 : Nat) : Int) ∧
          (publish s a).1.outFrameMsg.stamp_nanosec = t % 10 ^ 9 := by
  have hN : NS_TO_SEC = 10 ^ 9 := by decide
  have hU : U32 = 2 ^ 32 := rfl
  have hsec : toInt32 (t / 10 ^ 9) = ((t / 10 ^ 9 : Nat) : Int) := by
    have h1 : t / 10 ^ 9 % U32 = t / 10 ^ 9 := Nat.mod_eq_of_lt (by rw [hU]; omega)
    unfold toInt32
    rw [h1, if_pos h]
  have hns : t % 10 ^ 9 % U32 = t % 10 ^ 9 :=
    Nat.mod_eq_of_lt (lt_trans (Nat.mod_lt _ (by norm_num)) (by rw [hU]; norm_num))
  have hstamp : getCurrentStamp t = (((t / 10 ^ 9 : Nat) : Int), t % 10 ^ 9) := by
    unfold getCurrentStamp
    rw [hN, hsec, hns]
  have ht64 : toU64 (t : Int) = t := by
    have hlt : t < 2 ^ 64 := by
      have := Nat.div_add_mod t (10 ^ 9)
      have := Nat.mod_lt t (show 10 ^ 9 > 0 by norm_num)
      omega
    unfold toU64
    have : ((t : Int) % (2 : Int) ^ 64) = (t : Int) :=
      Int.emod_eq_of_lt (by omega) (by exact_mod_cast hlt)
    rw [this]
    simp
  refine ⟨hstamp, ?_, ?_, ?_⟩
  · rw [hstamp]
    exact Nat.mod_lt _ (by norm_num)
  · rw [hstamp]
    have := Nat.div_add_mod t (10 ^ 9)
    push_cast
    omega
  · intro s a ha
    cases hl : a.log <;> simp [publish, hl, ha, ht64, hstamp]

/-- C13 at `t = 3 s + 250 ns`. -/
theorem getCurrentStamp_split_witness :
    getCurrentStamp 3000000250 = (3, 250) ∧
      (publish idleSession ⟨[], false, 0, 3000000250, false⟩).1.outFrameMsg.stamp_sec = 3 ∧
      (publish idleSession ⟨[], false, 0, 3000000250, false⟩).1.outFrameMsg.stamp_nanosec =
        250 :=
  have h := getCurrentStamp_split 3000000250 (by decide)
  ⟨h.1, h.2.2.2 idleSession ⟨[], false, 0, 3000000250, false⟩ rfl⟩

end Picam

namespace Picam

/-! ### FPS accounting -/

/-- C15 as stated fails: with 30 frames counted and the last sample taken in
second 100, a completion in second 101 takes the snapshot branch; the count
afterwards is 1, not 0, because `frame_count++` is not in an `else`. -/
theorem fps_count_restarts_at_one :
    (captureRequestComplete idleEncoder
        { idleSession with frame_count := 30, last_fps_time := 100 }
        (frameAt 0 5 101 0)).state.last_fps = 30 ∧
      (captureRequestComplete idleEncoder
        { idleSession with frame_count := 30, last_fps_time := 100 }
        (frameAt 0 5 101 0)).state.last_fps_time = 101 ∧
      (captureRequestComplete idleEncoder
        { idleSession with frame_count := 30, last_fps_time := 100 }
        (frameAt 0 5 101 0)).state.frame_count = 1 ∧
      (captureRequestComplete idleEncoder
        { idleSession with frame_count := 30, last_fps_time := 100 }
        (frameAt 0 5 101 0)).state.frame_count ≠ 0 := by
  decide

/-- C15, amended. On each served completion the FPS accounting takes exactly one
of two branches: if at least 1 second has elapsed since the last FPS sample, the
count is stored in `last_fps`, the sample time becomes the current reading and
the count restarts at 1 (reset to 0, then the completion itself is counted);
otherwise the count is incremented by 1 and `last_fps` and the sample time are
unchanged. -/
theorem fps_accounting_branches (enc : EncoderModel) (s : Session) (c : Completion)
    (t : Int) (h : c.okWith t) :
    (t - s.last_fps_time ≥ 1 ∨ t - s.last_fps_time < 1) ∧
      (t - s.last_fps_time ≥ 1 →
        (captureRequestComplete enc s c).state.last_fps = s.frame_count ∧
          (captureRequestComplete enc s c).state.last_fps_time = t ∧
          (captureRequestComplete enc s c).state.frame_count = 1) ∧
      (t - s.last_fps_time < 1 →
        (captureRequestComplete enc s c).state.frame_count = s.frame_count + 1 ∧
          (captureRequestComplete enc s c).state.last_fps = s.last_fps ∧
          (captureRequestComplete enc s c).state.last_fps_time = s.last_fps_time) := by
  obtain ⟨-, -, k3, k4, k5, -, -⟩ := completion_spec enc s c t h
  refine ⟨by omega, fun hge => ?_, fun hlt => ?_⟩
  · rw [if_pos hge] at k3 k4 k5
    exact ⟨k4, k5, by rw [k3]; rfl⟩
  · have hng : ¬ (t - s.last_fps_time ≥ 1) := by omega
    rw [if_neg hng] at k3 k4 k5
    exact ⟨k3, k4, k5⟩

/-- C15, amended, on a completion one second after the last sample and on one in
the same second. -/
theorem fps_accounting_branches_witness :
    (captureRequestComplete idleEncoder
        { idleSession with frame_count := 30, last_fps_time := 100 }
        (frameAt 0 5 101 0)).state.frame_count = 1 ∧
      (captureRequestComplete idleEncoder
        { idleSession with frame_count := 30, last_fps_time := 100 }
        (frameAt 0 5 100 0)).state.frame_count = 30 + 1 :=
  ⟨((fps_accounting_branches idleEncoder
      { idleSession with frame_count := 30, last_fps_time := 100 } (frameAt 0 5 101 0) 101
      (frameAt_okWith _ _ _ _)).2.1 (by decide)).2.2,
    ((fps_accounting_branches idleEncoder
      { idleSession with frame_count := 30, last_fps_time := 100 } (frameAt 0 5 100 0) 100
      (frameAt_okWith _ _ _ _)).2.2 (by decide)).1⟩

end Picam

namespace Picam

/-! ### Steps of the completion callback -/

theorem steps_append (a b : List Event) : steps (a ++ b) = steps a ++ steps b := by
  simp [steps, List.filterMap_append]

theorem steps_publish (evs : List Event) (h : ∀ e ∈ evs, ∃ msg, e = Event.publish msg) :
    steps evs = [] := by
  induction evs with
  | nil => rfl
  | cons e rest ih =>
    obtain ⟨msg, rfl⟩ := h _ (List.mem_cons_self _ _)
    have := ih (fun e he => h e (List.mem_cons_of_mem _ he))
    simpa [steps, Event.step] using this

theorem publishAll_steps (ps : List PublishArgs) (s : Session) (tr : List Event) :
    steps (publishAll ps s tr).2 = steps tr := by
  obtain ⟨m, l, evs, h, hev⟩ := publishAll_spec ps s tr
  rw [h, steps_append, steps_publish evs hev, List.append_nil]

/-- A buffer whose begin synchronisation fails: the exception is thrown right
after the call, nothing else happens. -/
theorem processBuffer_start_fails (enc : EncoderModel) (ns : Int) (log : Bool) (s : Session)
    (tr : List Event) (b : CompletedBuffer) (h : b.ret_start ≠ 0) :
    processBuffer enc ns log s tr b =
      ⟨s, tr ++ [.syncStart b.buffer.fd],
        some (.threw "Failed to sync/start dma buf on queue request")⟩ := by
  simp [processBuffer, h]

/-- A buffer whose end synchronisation fails: the exception is thrown right after
the second call; the encoder is not reached. -/
theorem processBuffer_end_fails (enc : EncoderModel) (ns : Int) (log : Bool) (s : Session)
    (tr : List Event) (b : CompletedBuffer) (h0 : b.ret_start = 0) (h : b.ret_end ≠ 0) :
    (processBuffer enc ns log s tr b).exit =
        some (.threw "Failed to sync/end dma buf on queue request") ∧
      (processBuffer enc ns log s tr b).trace =
        tr ++ [.syncStart b.buffer.fd, .syncEnd b.buffer.fd] ∧
      (processBuffer enc ns log s tr b).state.running = s.running := by
  have hfr : (fpsUpdate s b.current_time).running = s.running := by
    unfold fpsUpdate; split <;> rfl
  cases log <;> simp [processBuffer, h0, h, hfr]

/-- A buffer whose two synchronisations succeed: begin, end, then the encoder. -/
theorem processBuffer_steps (enc : EncoderModel) (ns : Int) (log : Bool) (s : Session)
    (tr : List Event) (b : CompletedBuffer) (hs0 : b.ret_start = 0) (he0 : b.ret_end = 0) :
    steps (processBuffer enc ns log s tr b).trace =
      steps tr ++ [.syncStart b.buffer.fd, .syncEnd b.buffer.fd, .encode b.buffer.fd] := by
  cases log <;> by_cases hz : s.timestamp_ns_base = 0 <;>
    simp only [processBuffer, hs0, he0, publishAll_steps, steps_append, hz, ne_eq,
      not_true_eq_false, if_false, if_true, Bool.false_eq_true, reduceIte] <;>
    simp [steps, Event.step]

end Picam

namespace Picam

/-- The buffer loop of the completion callback performs exactly the prescribed
steps, keeps the running flag, ends normally when every synchronisation
succeeds and by an exception otherwise. -/
theorem processBuffers_steps (enc : EncoderModel) (ns : Int) (log : Bool)
    (bs : List CompletedBuffer) :
    ∀ (s : Session) (tr : List Event),
      steps (processBuffers enc ns log bs s tr).trace = steps tr ++ expectedSteps bs ∧
        (processBuffers enc ns log bs s tr).state.running = s.running ∧
        (allSynced bs = true → (processBuffers enc ns log bs s tr).exit = none) ∧
        (allSynced bs = false →
          (processBuffers enc ns log bs s tr).exit =
              some (.threw "Failed to sync/start dma buf on queue request") ∨
            (processBuffers enc ns log bs s tr).exit =
              some (.threw "Failed to sync/end dma buf on queue request")) := by
  induction bs with
  | nil =>
    intro s tr
    simp [processBuffers, expectedSteps, allSynced]
  | cons b rest ih =>
    intro s tr
    by_cases hs0 : b.ret_start = 0
    · by_cases he0 : b.ret_end = 0
      · obtain ⟨k1, -, -, -, -, k6, -⟩ := processBuffer_spec enc ns log s tr b hs0 he0
        have kst := processBuffer_steps enc ns log s tr b hs0 he0
        obtain ⟨i1, i2, i3, i4⟩ := ih (processBuffer enc ns log s tr b).state
          (processBuffer enc ns log s tr b).trace
        have hstep : processBuffers enc ns log (b :: rest) s tr =
            processBuffers enc ns log rest (processBuffer enc ns log s tr b).state
              (processBuffer enc ns log s tr b).trace := by
          simp only [processBuffers, k1]
        have hall : allSynced (b :: rest) = allSynced rest := by
          simp [allSynced, hs0, he0]
        rw [hstep, hall]
        refine ⟨?_, by rw [i2, k6], i3, i4⟩
        rw [i1, kst]
        simp [expectedSteps, hs0, he0]
      · obtain ⟨k1, k2, k3⟩ := processBuffer_end_fails enc ns log s tr b hs0 he0
        have hstep : processBuffers enc ns log (b :: rest) s tr =
            ⟨(processBuffer enc ns log s tr b).state, (processBuffer enc ns log s tr b).trace,
              some (.threw "Failed to sync/end dma buf on queue request")⟩ := by
          simp only [processBuffers, k1]
        have hall : allSynced (b :: rest) = false := by
          simp [allSynced, hs0, he0]
        rw [hstep, hall]
        refine ⟨?_, k3, by simp, fun _ => Or.inr rfl⟩
        show steps (processBuffer enc ns log s tr b).trace = _
        rw [k2, steps_append]
        simp [expectedSteps, hs0, he0, steps, Event.step]
    · have k := processBuffer_start_fails enc ns log s tr b hs0
      have hstep : processBuffers enc ns log (b :: rest) s tr =
          ⟨s, tr ++ [.syncStart b.buffer.fd],
            some (.threw "Failed to sync/start dma buf on queue request")⟩ := by
        simp only [processBuffers, k]
      have hall : allSynced (b :: rest) = false := by
        simp [allSynced, hs0]
      rw [hstep, hall]
      refine ⟨?_, rfl, by simp, fun _ => Or.inl rfl⟩
      show steps (tr ++ [.syncStart b.buffer.fd]) = _
      rw [steps_append]
      simp [expectedSteps, hs0, steps, Event.step]

/-- The completion callback on a request that is not cancelled: the prescribed
steps for its buffers, followed by reuse and requeue exactly when every
synchronisation succeeded and the running flag is set. -/
theorem captureRequestComplete_steps (enc : EncoderModel) (s : Session) (c : Completion)
    (hst : c.status ≠ .RequestCancelled) :
    steps (captureRequestComplete enc s c).trace =
        expectedSteps c.buffers ++
          (if allSynced c.buffers = true ∧ s.running = true then
            [.reuse c.request, .queueRequest c.request] else []) ∧
      (captureRequestComplete enc s c).state.running = s.running ∧
      (allSynced c.buffers = true → (captureRequestComplete enc s c).result = .returned) ∧
      (allSynced c.buffers = false →
        (captureRequestComplete enc s c).result =
            .threw "Failed to sync/start dma buf on queue request" ∨
          (captureRequestComplete enc s c).result =
            .threw "Failed to sync/end dma buf on queue request") := by
  obtain ⟨log, hlog⟩ : ∃ log : Bool, log = decide (s.log_message_every_ns > -1 ∧
      c.ns_since_epoch - s.last_log ≥ s.log_message_every_ns) := ⟨_, rfl⟩
  obtain ⟨s1, hs1, hr1⟩ : ∃ s1 : Session,
      s1 = (if log then { s with last_log := c.ns_since_epoch } else s) ∧
      s1.running = s.running := by
    refine ⟨_, rfl, ?_⟩
    cases log <;> simp
  obtain ⟨l, hl⟩ : ∃ l : Carry, l = processBuffers enc c.ns_since_epoch log c.buffers s1 [] :=
    ⟨_, rfl⟩
  obtain ⟨p1, p2, p3, p4⟩ := processBuffers_steps enc c.ns_since_epoch log c.buffers s1 []
  rw [← hl] at p1 p2 p3 p4
  rw [hr1] at p2
  have hcr : captureRequestComplete enc s c =
      match l.exit with
      | some r => ⟨l.state, l.trace, r⟩
      | none =>
        if l.state.running = false then ⟨l.state, l.trace, .returned⟩
        else ⟨l.state, l.trace ++ [.reuse c.request, .queueRequest c.request], .returned⟩ := by
    simp only [captureRequestComplete, if_neg hst, ← hlog, ← hs1, ← hl]
  have hnil : steps ([] : List Event) = [] := rfl
  rw [hnil, List.nil_append] at p1
  rcases Bool.eq_false_or_eq_true (allSynced c.buffers) with hall | hall
  · have hex := p3 hall
    have hnf : ¬ (allSynced c.buffers = false) := by rw [hall]; simp
    rw [hcr, hex]
    cases hrun : s.running with
    | true =>
      have hnr : ¬ (l.state.running = false) := by rw [p2, hrun]; simp
      rw [if_neg hnr]
      refine ⟨?_, by rw [p2, hrun], fun _ => rfl, fun h => absurd h hnf⟩
      rw [steps_append, p1, if_pos ⟨hall, rfl⟩]
      simp [steps, Event.step]
    | false =>
      have hr : l.state.running = false := by rw [p2, hrun]
      rw [if_pos hr]
      refine ⟨?_, by rw [p2, hrun], fun _ => rfl, fun h => absurd h hnf⟩
      rw [p1, if_neg (fun h => Bool.false_ne_true h.2)]
      simp
  · have hnt : ¬ (allSynced c.buffers = true) := by rw [hall]; simp
    rcases p4 hall with hex | hex
    · rw [hcr, hex]
      refine ⟨?_, p2, fun h => absurd h hnt, fun _ => Or.inl rfl⟩
      show steps l.trace = _
      rw [p1, if_neg (fun h => hnt h.1)]
      simp
    · rw [hcr, hex]
      refine ⟨?_, p2, fun h => absurd h hnt, fun _ => Or.inr rfl⟩
      show steps l.trace = _
      rw [p1, if_neg (fun h => hnt h.1)]
      simp

end Picam

namespace Picam

theorem allSynced_iff (bs : List CompletedBuffer) :
    allSynced bs = true ↔ ∀ b ∈ bs, b.ret_start = 0 ∧ b.ret_end = 0 := by
  simp [allSynced, List.all_eq_true]

theorem allSynced_failure (pre post : List CompletedBuffer) (b : CompletedBuffer)
    (h : b.ret_start ≠ 0 ∨ b.ret_end ≠ 0) : allSynced (pre ++ b :: post) = false := by
  cases hall : allSynced (pre ++ b :: post) with
  | false => rfl
  | true =>
    exfalso
    have := (allSynced_iff _).1 hall b (by simp)
    rcases h with h | h
    · exact h this.1
    · exact h this.2

theorem expectedSteps_append (pre rest : List CompletedBuffer)
    (h : ∀ b ∈ pre, b.ret_start = 0 ∧ b.ret_end = 0) :
    expectedSteps (pre ++ rest) = expectedSteps pre ++ expectedSteps rest := by
  induction pre with
  | nil => simp [expectedSteps]
  | cons b bs ih =>
    obtain ⟨h1, h2⟩ := h b (List.mem_cons_self _ _)
    have := ih (fun x hx => h x (List.mem_cons_of_mem _ hx))
    simp [expectedSteps, h1, h2, this]

/-- The prescribed steps hold no reuse and no requeue. -/
theorem expectedSteps_kinds (bs : List CompletedBuffer) :
    ∀ st ∈ expectedSteps bs,
      ∃ fd, st = Step.syncStart fd ∨ st = Step.syncEnd fd ∨ st = Step.encode fd := by
  induction bs with
  | nil => intro st h; simp [expectedSteps] at h
  | cons b rest ih =>
    intro st h
    unfold expectedSteps at h
    split at h
    · exact ⟨b.buffer.fd, Or.inl (by simpa using h)⟩
    · split at h
      · simp at h
        rcases h with h | h
        · exact ⟨b.buffer.fd, Or.inl h⟩
        · exact ⟨b.buffer.fd, Or.inr (Or.inl h)⟩
      · simp at h
        rcases h with h | h | h | h
        · exact ⟨b.buffer.fd, Or.inl h⟩
        · exact ⟨b.buffer.fd, Or.inr (Or.inl h)⟩
        · exact ⟨b.buffer.fd, Or.inr (Or.inr h)⟩
        · exact ih st h

/-- With every synchronisation succeeding, the encoder is prescribed once per
buffer, in order. -/
theorem expectedSteps_encoded (bs : List CompletedBuffer)
    (h : ∀ b ∈ bs, b.ret_start = 0 ∧ b.ret_end = 0) :
    (expectedSteps bs).filterMap (fun st => match st with
      | .encode fd => some fd
      | _ => none) = bs.map (fun b => b.buffer.fd) := by
  induction bs with
  | nil => rfl
  | cons b rest ih =>
    obtain ⟨h1, h2⟩ := h b (List.mem_cons_self _ _)
    have := ih (fun x hx => h x (List.mem_cons_of_mem _ hx))
    simp [expectedSteps, h1, h2, this]

/-- In the prescribed steps, followed by steps that are no encoder call, every
encoder call comes right after the begin and the end synchronisation of the same
descriptor. -/
theorem expectedSteps_order (bs : List CompletedBuffer) (tail : List Step)
    (htail : ∀ fd, Step.encode fd ∉ tail) :
    ∀ (l1 l2 : List Step) (fd : Nat), expectedSteps bs ++ tail = l1 ++ Step.encode fd :: l2 →
      ∃ l0, l1 = l0 ++ [Step.syncStart fd, Step.syncEnd fd] := by
  induction bs with
  | nil =>
    intro l1 l2 fd h
    exfalso
    have : Step.encode fd ∈ tail := by
      simp only [expectedSteps, List.nil_append] at h
      rw [h]; simp
    exact htail fd this
  | cons b rest ih =>
    intro l1 l2 fd h
    unfold expectedSteps at h
    split at h
    · exfalso
      have hmem : Step.encode fd ∈ [Step.syncStart b.buffer.fd] ++ tail := by rw [h]; simp
      simp at hmem
      exact htail fd hmem
    · split at h
      · exfalso
        have hmem : Step.encode fd ∈
            [Step.syncStart b.buffer.fd, Step.syncEnd b.buffer.fd] ++ tail := by
          rw [h]; simp
        simp at hmem
        exact htail fd hmem
      · rcases l1 with _ | ⟨x, _ | ⟨y, _ | ⟨z, l1'⟩⟩⟩
        · simp at h
        · simp at h
        · simp at h
          obtain ⟨rfl, rfl, hfd, -⟩ := h
          exact ⟨[], by simp [hfd]⟩
        · simp at h
          obtain ⟨rfl, rfl, rfl, hrest⟩ := h
          obtain ⟨l0, hl0⟩ := ih l1' l2 fd hrest
          exact ⟨Step.syncStart b.buffer.fd :: Step.syncEnd b.buffer.fd ::
            Step.encode b.buffer.fd :: l0, by simp [hl0]⟩

theorem mem_steps_of_mem (tr : List Event) (e : Event) (st : Step) (he : e ∈ tr)
    (hs : e.step = some st) : st ∈ steps tr :=
  List.mem_filterMap.2 ⟨e, he, hs⟩

theorem reuse_mem_iff (tr : List Event) (r : Nat) :
    Event.reuse r ∈ tr ↔ Step.reuse r ∈ steps tr := by
  constructor
  · intro h
    exact mem_steps_of_mem tr _ _ h rfl
  · intro h
    obtain ⟨e, he, hs⟩ := List.mem_filterMap.1 h
    cases e <;> simp [Event.step] at hs
    subst hs
    exact he

theorem queueRequest_mem_iff (tr : List Event) (r : Nat) :
    Event.queueRequest r ∈ tr ↔ Step.queueRequest r ∈ steps tr := by
  constructor
  · intro h
    exact mem_steps_of_mem tr _ _ h rfl
  · intro h
    obtain ⟨e, he, hs⟩ := List.mem_filterMap.1 h
    cases e <;> simp [Event.step] at hs
    subst hs
    exact he

end Picam

namespace Picam

/-- The buffer loop stops at the first buffer with a failing synchronisation, with
the error of the call that failed. -/
theorem processBuffers_first_failure (enc : EncoderModel) (ns : Int) (log : Bool)
    (b : CompletedBuffer) (post : List CompletedBuffer)
    (hfail : b.ret_start ≠ 0 ∨ b.ret_end ≠ 0) (pre : List CompletedBuffer) :
    ∀ (s : Session) (tr : List Event), (∀ p ∈ pre, p.ret_start = 0 ∧ p.ret_end = 0) →
      (processBuffers enc ns log (pre ++ b :: post) s tr).exit =
        some (.threw (if b.ret_start ≠ 0 then "Failed to sync/start dma buf on queue request"
          else "Failed to sync/end dma buf on queue request")) := by
  induction pre with
  | nil =>
    intro s tr _
    by_cases hs0 : b.ret_start = 0
    · have he0 : b.ret_end ≠ 0 := by
        rcases hfail with h | h
        · exact absurd hs0 h
        · exact h
      obtain ⟨k1, -, -⟩ := processBuffer_end_fails enc ns log s tr b hs0 he0
      simp only [List.nil_append, processBuffers, k1]
      simp [hs0]
    · have k := processBuffer_start_fails enc ns log s tr b hs0
      simp only [List.nil_append, processBuffers, k]
      simp [hs0]
  | cons p rest ih =>
    intro s tr hpre
    obtain ⟨h1, h2⟩ := hpre p (List.mem_cons_self _ _)
    obtain ⟨k1, -, -, -, -, -, -⟩ := processBuffer_spec enc ns log s tr p h1 h2
    have hstep : processBuffers enc ns log (p :: rest ++ b :: post) s tr =
        processBuffers enc ns log (rest ++ b :: post) (processBuffer enc ns log s tr p).state
          (processBuffer enc ns log s tr p).trace := by
      simp only [List.cons_append, processBuffers, k1]
      rfl
    rw [hstep]
    exact ih _ _ (fun x hx => hpre x (List.mem_cons_of_mem _ hx))

/-- How the completion callback is left, by the way its buffer loop ends. -/
theorem captureRequestComplete_result (enc : EncoderModel) (s : Session) (c : Completion)
    (hst : c.status ≠ .RequestCancelled) :
    ∃ (log : Bool) (s1 : Session),
      (captureRequestComplete enc s c).result =
        match (processBuffers enc c.ns_since_epoch log c.buffers s1 []).exit with
        | some r => r
        | none => .returned := by
  obtain ⟨log, hlog⟩ : ∃ log : Bool, log = decide (s.log_message_every_ns > -1 ∧
      c.ns_since_epoch - s.last_log ≥ s.log_message_every_ns) := ⟨_, rfl⟩
  obtain ⟨s1, hs1⟩ : ∃ s1 : Session,
      s1 = (if log then { s with last_log := c.ns_since_epoch } else s) := ⟨_, rfl⟩
  obtain ⟨l, hl⟩ : ∃ l : Carry, l = processBuffers enc c.ns_since_epoch log c.buffers s1 [] :=
    ⟨_, rfl⟩
  have hcr : captureRequestComplete enc s c =
      match l.exit with
      | some r => ⟨l.state, l.trace, r⟩
      | none =>
        if l.state.running = false then ⟨l.state, l.trace, .returned⟩
        else ⟨l.state, l.trace ++ [.reuse c.request, .queueRequest c.request], .returned⟩ := by
    simp only [captureRequestComplete, if_neg hst, ← hlog, ← hs1, ← hl]
  refine ⟨log, s1, ?_⟩
  rw [hcr, ← hl]
  cases hx : l.exit with
  | some r => rfl
  | none =>
    simp only
    split <;> rfl

/-- A served completion: the callback returns, the encoder is called once per
buffer in order, and the request is reused and requeued, last, exactly when the
running flag is set. -/
theorem served_completion (enc : EncoderModel) (s : Session) (c : Completion)
    (hst : c.status ≠ .RequestCancelled)
    (hsync : ∀ b ∈ c.buffers, b.ret_start = 0 ∧ b.ret_end = 0) :
    (captureRequestComplete enc s c).result = .returned ∧
      encodedFds (captureRequestComplete enc s c).trace =
        c.buffers.map (fun b => b.buffer.fd) ∧
      steps (captureRequestComplete enc s c).trace =
        expectedSteps c.buffers ++
          (if s.running = true then [.reuse c.request, .queueRequest c.request] else []) ∧
      (Event.reuse c.request ∈ (captureRequestComplete enc s c).trace ↔ s.running = true) ∧
      (Event.queueRequest c.request ∈ (captureRequestComplete enc s c).trace ↔
        s.running = true) ∧
      (s.running = false → ∀ r, Event.reuse r ∉ (captureRequestComplete enc s c).trace ∧
        Event.queueRequest r ∉ (captureRequestComplete enc s c).trace) := by
  have hall : allSynced c.buffers = true := (allSynced_iff _).2 hsync
  obtain ⟨g1, -, g3, -⟩ := captureRequestComplete_steps enc s c hst
  have hsteps : steps (captureRequestComplete enc s c).trace =
      expectedSteps c.buffers ++
        (if s.running = true then [.reuse c.request, .queueRequest c.request] else []) := by
    rw [g1]
    by_cases hr : s.running = true
    · rw [if_pos ⟨hall, hr⟩, if_pos hr]
    · rw [if_neg (fun h => hr h.2), if_neg hr]
  have hnot : ∀ st : Step, (∀ fd, st ≠ .syncStart fd ∧ st ≠ .syncEnd fd ∧ st ≠ .encode fd) →
      st ∉ expectedSteps c.buffers := by
    intro st hst' hmem
    obtain ⟨fd, h | h | h⟩ := expectedSteps_kinds c.buffers st hmem
    · exact (hst' fd).1 h
    · exact (hst' fd).2.1 h
    · exact (hst' fd).2.2 h
  refine ⟨g3 hall, ?_, hsteps, ?_, ?_, ?_⟩
  · unfold encodedFds
    rw [hsteps, List.filterMap_append, expectedSteps_encoded c.buffers hsync]
    by_cases hr : s.running = true
    · rw [if_pos hr]; simp
    · rw [if_neg hr]; simp
  · rw [reuse_mem_iff, hsteps]
    constructor
    · intro h
      by_contra hr
      rw [if_neg hr, List.append_nil] at h
      exact hnot _ (fun fd => ⟨by simp, by simp, by simp⟩) h
    · intro hr
      rw [if_pos hr]
      simp
  · rw [queueRequest_mem_iff, hsteps]
    constructor
    · intro h
      by_contra hr
      rw [if_neg hr, List.append_nil] at h
      exact hnot _ (fun fd => ⟨by simp, by simp, by simp⟩) h
    · intro hr
      rw [if_pos hr]
      simp
  · intro hr r
    have hr' : ¬ (s.running = true) := by rw [hr]; simp
    rw [reuse_mem_iff, queueRequest_mem_iff, hsteps, if_neg hr', List.append_nil]
    exact ⟨hnot _ (fun fd => ⟨by simp, by simp, by simp⟩),
      hnot _ (fun fd => ⟨by simp, by simp, by simp⟩)⟩

theorem stop_running (s : Session) : (stop s).state.running = false := by
  cases h : s.running <;> simp [stop, h]

end Picam

namespace Picam

/-! ### Encode and requeue -/

/-- C12. For every request that is not cancelled and whose cache synchronisations
all succeed, `captureRequestComplete` returns, calls the encoder exactly once per
buffer, in order, and afterwards, as its last two steps, marks the request for
reuse and requeues it if and only if the running flag is set.  In particular on
a session on which `stop()` was called the buffers are still encoded and the
request is neither reused nor requeued. -/
theorem served_request_encoded_requeued_iff_running (enc : EncoderModel) (s : Session)
    (c : Completion) (hst : c.status ≠ .RequestCancelled)
    (hsync : ∀ b ∈ c.buffers, b.ret_start = 0 ∧ b.ret_end = 0) :
    (captureRequestComplete enc s c).result = .returned ∧
      encodedFds (captureRequestComplete enc s c).trace =
        c.buffers.map (fun b => b.buffer.fd) ∧
      steps (captureRequestComplete enc s c).trace =
        expectedSteps c.buffers ++
          (if s.running = true then [.reuse c.request, .queueRequest c.request] else []) ∧
      (Event.reuse c.request ∈ (captureRequestComplete enc s c).trace ↔ s.running = true) ∧
      (Event.queueRequest c.request ∈ (captureRequestComplete enc s c).trace ↔
        s.running = true) ∧
      (captureRequestComplete enc (stop s).state c).result = .returned ∧
      encodedFds (captureRequestComplete enc (stop s).state c).trace =
        c.buffers.map (fun b => b.buffer.fd) ∧
      ∀ r, Event.reuse r ∉ (captureRequestComplete enc (stop s).state c).trace ∧
        Event.queueRequest r ∉ (captureRequestComplete enc (stop s).state c).trace := by
  obtain ⟨a1, a2, a3, a4, a5, -⟩ := served_completion enc s c hst hsync
  obtain ⟨b1, b2, -, -, -, b6⟩ := served_completion enc (stop s).state c hst hsync
  exact ⟨a1, a2, a3, a4, a5, b1, b2, b6 (stop_running s)⟩

/-- C12 on a request with two buffers, on a running session and after `stop()`. -/
theorem served_request_encoded_requeued_iff_running_witness :
    steps (captureRequestComplete idleEncoder { idleSession with running := true }
        (completionOf [bufferWith 10 0 0, bufferWith 11 0 0])).trace =
      [.syncStart 10, .syncEnd 10, .encode 10, .syncStart 11, .syncEnd 11, .encode 11,
        .reuse 7, .queueRequest 7] ∧
      encodedFds (captureRequestComplete idleEncoder
        (stop { idleSession with running := true }).state
        (completionOf [bufferWith 10 0 0, bufferWith 11 0 0])).trace = [10, 11] ∧
      Event.queueRequest 7 ∉ (captureRequestComplete idleEncoder
        (stop { idleSession with running := true }).state
        (completionOf [bufferWith 10 0 0, bufferWith 11 0 0])).trace :=
  have h := served_request_encoded_requeued_iff_running idleEncoder
    { idleSession with running := true }
    (completionOf [bufferWith 10 0 0, bufferWith 11 0 0]) (by decide) (by decide)
  ⟨h.2.2.1, h.2.2.2.2.2.2.1, (h.2.2.2.2.2.2.2 7).2⟩

/-! ### Failing cache synchronisation -/

/-- C16. For every request that is not cancelled: the encoder is called for a
buffer only right after the begin and then the end synchronisation of that
buffer (first part).  If the begin or the end synchronisation of a buffer fails,
all earlier ones having succeeded, `captureRequestComplete` throws the error of
the failing call; the trace ends with that call; the encoder has been called
for the earlier buffers only, not for the failing one; and the request is
neither reused nor requeued (second part). -/
theorem sync_failure_aborts (enc : EncoderModel) (s : Session) (c : Completion)
    (hst : c.status ≠ .RequestCancelled) :
    (∀ (l1 l2 : List Step) (fd : Nat),
        steps (captureRequestComplete enc s c).trace = l1 ++ Step.encode fd :: l2 →
        ∃ l0, l1 = l0 ++ [Step.syncStart fd, Step.syncEnd fd]) ∧
      ∀ (pre post : List CompletedBuffer) (b : CompletedBuffer),
        c.buffers = pre ++ b :: post → (∀ p ∈ pre, p.ret_start = 0 ∧ p.ret_end = 0) →
        (b.ret_start ≠ 0 ∨ b.ret_end ≠ 0) →
        (captureRequestComplete enc s c).result =
            .threw (if b.ret_start ≠ 0 then "Failed to sync/start dma buf on queue request"
              else "Failed to sync/end dma buf on queue request") ∧
          steps (captureRequestComplete enc s c).trace =
            expectedSteps pre ++
              (if b.ret_start ≠ 0 then [.syncStart b.buffer.fd]
                else [.syncStart b.buffer.fd, .syncEnd b.buffer.fd]) ∧
          encodedFds (captureRequestComplete enc s c).trace =
            pre.map (fun p => p.buffer.fd) ∧
          ∀ r, Event.reuse r ∉ (captureRequestComplete enc s c).trace ∧
            Event.queueRequest r ∉ (captureRequestComplete enc s c).trace := by
  obtain ⟨g1, -, -, -⟩ := captureRequestComplete_steps enc s c hst
  constructor
  · intro l1 l2 fd h
    rw [g1] at h
    refine expectedSteps_order c.buffers _ ?_ l1 l2 fd h
    intro fd'
    split <;> simp
  · intro pre post b hbuf hpre hfail
    have hall : allSynced c.buffers = false := by
      rw [hbuf]; exact allSynced_failure pre post b hfail
    have hsteps : steps (captureRequestComplete enc s c).trace =
        expectedSteps pre ++
          (if b.ret_start ≠ 0 then [.syncStart b.buffer.fd]
            else [.syncStart b.buffer.fd, .syncEnd b.buffer.fd]) := by
      rw [g1, if_neg (fun h => by rw [hall] at h; exact Bool.false_ne_true h.1),
        List.append_nil, hbuf, expectedSteps_append pre (b :: post) hpre]
      congr 1
      by_cases hs0 : b.ret_start = 0
      · have he0 : b.ret_end ≠ 0 := by
          rcases hfail with h | h
          · exact absurd hs0 h
          · exact h
        simp [expectedSteps, hs0, he0]
      · simp [expectedSteps, hs0]
    have hnot : ∀ st : Step,
        (∀ fd, st ≠ .syncStart fd ∧ st ≠ .syncEnd fd ∧ st ≠ .encode fd) →
        st ∉ steps (captureRequestComplete enc s c).trace := by
      intro st hst' hmem
      rw [hsteps] at hmem
      rcases List.mem_append.1 hmem with h | h
      · obtain ⟨fd, h | h | h⟩ := expectedSteps_kinds pre st h
        · exact (hst' fd).1 h
        · exact (hst' fd).2.1 h
        · exact (hst' fd).2.2 h
      · split at h
        · simp at h
          exact (hst' _).1 h
        · simp at h
          rcases h with h | h
          · exact (hst' _).1 h
          · exact (hst' _).2.1 h
    refine ⟨?_, hsteps, ?_, fun r => ?_⟩
    · obtain ⟨log, s1, hres⟩ := captureRequestComplete_result enc s c hst
      rw [hres, hbuf,
        processBuffers_first_failure enc c.ns_since_epoch log b post hfail pre s1 [] hpre]
    · unfold encodedFds
      rw [hsteps, List.filterMap_append, expectedSteps_encoded pre hpre]
      split <;> simp
    · rw [reuse_mem_iff, queueRequest_mem_iff]
      exact ⟨hnot _ (fun fd => ⟨by simp, by simp, by simp⟩),
        hnot _ (fun fd => ⟨by simp, by simp, by simp⟩)⟩

/-- C16 on a running session and a request with three buffers of which the
second fails its end synchronisation. -/
theorem sync_failure_aborts_witness :
    (captureRequestComplete idleEncoder { idleSession with running := true }
        (completionOf [bufferWith 10 0 0, bufferWith 11 0 (-1), bufferWith 12 0 0])).result =
      .threw "Failed to sync/end dma buf on queue request" ∧
      steps (captureRequestComplete idleEncoder { idleSession with running := true }
        (completionOf [bufferWith 10 0 0, bufferWith 11 0 (-1), bufferWith 12 0 0])).trace =
      [.syncStart 10, .syncEnd 10, .encode 10, .syncStart 11, .syncEnd 11] ∧
      encodedFds (captureRequestComplete idleEncoder { idleSession with running := true }
        (completionOf [bufferWith 10 0 0, bufferWith 11 0 (-1), bufferWith 12 0 0])).trace =
      [10] ∧
      Event.queueRequest 7 ∉ (captureRequestComplete idleEncoder
        { idleSession with running := true }
        (completionOf [bufferWith 10 0 0, bufferWith 11 0 (-1), bufferWith 12 0 0])).trace :=
  have h := (sync_failure_aborts idleEncoder { idleSession with running := true }
    (completionOf [bufferWith 10 0 0, bufferWith 11 0 (-1), bufferWith 12 0 0])
    (by decide)).2 [bufferWith 10 0 0] [bufferWith 12 0 0] (bufferWith 11 0 (-1)) rfl
    (by decide) (by decide)
  ⟨h.1, h.2.1, h.2.2.1, (h.2.2.2 7).2⟩

end Picam

namespace Picam

/-! ### Frame index -/

end Picam

namespace Picam

end Picam

namespace Picam

/-! ### The running flag after a failed start -/

theorem allocBuffers_no_cerr (env : CameraEnv) (k : Nat) (todo : Nat) :
    ∀ (i : Nat) (bufs : List FrameBuffer) (s : Session) (tr : List Event),
      (∀ msg, Event.cerr msg ∉ tr) →
      ∀ msg, Event.cerr msg ∉ (allocBuffers env k todo i bufs s tr).2.trace := by
  induction todo with
  | zero => intro i bufs s tr h; simpa [allocBuffers] using h
  | succ n ih =>
    intro i bufs s tr h
    cases ha : env.alloc k i s.buffer_size with
    | none =>
      intro msg
      simp only [allocBuffers, ha]
      simp [h msg]
    | some fd =>
      simp only [allocBuffers, ha]
      apply ih
      intro msg
      simp [h msg]

theorem makeRequests_no_cerr (env : CameraEnv) (k stream : Nat) (bufs : List FrameBuffer) :
    ∀ (i : Nat) (s : Session) (tr : List Event), (∀ msg, Event.cerr msg ∉ tr) →
      (makeRequests env k stream bufs i s tr).exit = none →
      ∀ msg, Event.cerr msg ∉ (makeRequests env k stream bufs i s tr).trace := by
  induction bufs with
  | nil => intro i s tr h _; simpa [makeRequests] using h
  | cons b rest ih =>
    intro i s tr h hex
    by_cases hc : env.createRequest k i = false
    · simp [makeRequests, hc] at hex
    · by_cases ha : env.addBuffer k i < 0
      · simp [makeRequests, hc, ha] at hex
      · simp only [makeRequests, hc, ha, if_false] at hex ⊢
        apply ih _ _ _ _ hex
        intro msg
        simp [h msg]

/-- A stream loop that does not end by the early `return` has written nothing to
`cerr`. -/
theorem streamLoop_no_cerr (env : CameraEnv) (cfgs : List StreamConfiguration) :
    ∀ (k : Nat) (s : Session) (tr : List Event), (∀ msg, Event.cerr msg ∉ tr) →
      (streamLoop env cfgs k s tr).exit ≠ some .returned →
      ∀ msg, Event.cerr msg ∉ (streamLoop env cfgs k s tr).trace := by
  induction cfgs with
  | nil => intro k s tr h _; simpa [streamLoop] using h
  | cons cfg rest ih =>
    intro k s tr h hex
    obtain ⟨a, q, ha, hq, c1, c2, c3⟩ := streamLoop_cons env cfg rest k s tr
    have hatr : ∀ msg, Event.cerr msg ∉ a.2.trace := by
      rw [ha]; exact allocBuffers_no_cerr env k _ _ _ _ _ h
    cases hae : a.2.exit with
    | some r => rw [c1 r hae]; exact hatr
    | none =>
      obtain ⟨news, evs, -, -, -, -, -, q5⟩ := makeRequests_spec env k cfg.stream
        (lookupVec (assignVec a.2.state.capture_frame_buffers cfg.stream a.1) cfg.stream) 0
        { a.2.state with
          capture_frame_buffers := assignVec a.2.state.capture_frame_buffers cfg.stream a.1 }
        a.2.trace
      rw [← hq] at q5
      rcases q5 with ⟨hqe, -, -⟩ | ⟨hqe, -⟩
      · rw [c3 hae hqe] at hex ⊢
        apply ih _ _ _ _ hex
        rw [hq] at hqe ⊢
        exact makeRequests_no_cerr env k cfg.stream _ _ _ _ hatr hqe
      · rw [c2 _ hae hqe] at hex
        exact absurd rfl hex

/-- On a session whose running flag is set `start()` is a no-op. -/
theorem start_running_noop (env : CameraEnv) (store : ParamStore) (s : Session)
    (h : s.running = true) : start env store s = ⟨s, [], .returned⟩ := by
  simp [start, h]

/-- C17. On a stopped session `start()` sets the running flag before anything can
fail, and the flag is still set afterwards however `start()` is left.  When
`start()` throws (validation or allocation error) or has written an error to
`cerr` (early return on a request that cannot be created or given its buffer),
the camera was not started.  Every later `start()` on the session it leaves is
a no-op, until `stop()` clears the flag, after which `start()` acquires the
camera again. -/
theorem start_failure_keeps_running (env : CameraEnv) (store : ParamStore) (s : Session)
    (hrun : s.running = false) :
    (start env store s).state.running = true ∧
      (∀ msg, (start env store s).result = .threw msg →
        Event.cameraStart ∉ (start env store s).trace) ∧
      (∀ msg, Event.cerr msg ∈ (start env store s).trace →
        (start env store s).result = .returned ∧
          Event.cameraStart ∉ (start env store s).trace) ∧
      (∀ (env' : CameraEnv) (store' : ParamStore),
        start env' store' (start env store s).state =
          ⟨(start env store s).state, [], .returned⟩) ∧
      (stop (start env store s).state).state.running = false ∧
      ∀ (env' : CameraEnv) (store' : ParamStore),
        Event.acquire ∈ (start env' store' (stop (start env store s).state).state).trace := by
  have hrunning : (start env store s).state.running = true := by
    obtain ⟨news, str, bs, m, ms, fb, pub, msg, e, calls, hst, -⟩ :=
      start_state env store s hrun
    rw [hst]
    rfl
  have hacq : ∀ (env' : CameraEnv) (store' : ParamStore) (s' : Session),
      s'.running = false → Event.acquire ∈ (start env' store' s').trace := by
    intro env' store' s' hr
    obtain ⟨p, v, c, -, -, hc, c1, c2, c3⟩ := start_cases env' store' s' hr
    obtain ⟨-, -, -, -, -, evs, -, r2, -, -, -, -⟩ := streamLoop_spec env' v.2.toList 0
      { p with stride := v.2.first.stride }
      ([.acquire, .generateConfiguration, .validate] ++ [.configure])
    rw [← hc] at r2
    have hct : Event.acquire ∈ c.trace := by rw [r2]; simp
    by_cases hinv : v.1 = .Invalid
    · rw [c1 hinv]; simp
    · cases hex : c.exit with
      | some r => rw [c2 r hinv hex]; exact hct
      | none =>
        rw [c3 hinv hex]
        simp only [finishStart, List.mem_append]
        exact Or.inl (Or.inl hct)
  obtain ⟨p, v, c, hp, hv, hc, c1, c2, c3⟩ := start_cases env store s hrun
  obtain ⟨news, bs, m, ms, fb, evs, -, r2, -, r4, r5, -⟩ := streamLoop_spec env v.2.toList 0
    { p with stride := v.2.first.stride }
    ([.acquire, .generateConfiguration, .validate] ++ [.configure])
  rw [← hc] at r2 r5
  have hnostart : Event.cameraStart ∉ c.trace := by
    intro hmem
    rw [r2] at hmem
    rcases List.mem_append.1 hmem with h | h
    · simp at h
    · have := r4 _ h
      cases this
  have hnocerr : c.exit ≠ some .returned → ∀ msg, Event.cerr msg ∉ c.trace := by
    intro hex
    rw [hc] at hex ⊢
    exact streamLoop_no_cerr env _ _ _ _ (by intro msg; simp) hex
  refine ⟨hrunning, ?_, ?_, ?_, stop_running _, ?_⟩
  · intro msg hres
    by_cases hinv : v.1 = .Invalid
    · rw [c1 hinv]; simp
    · cases hex : c.exit with
      | some r => rw [c2 r hinv hex]; exact hnostart
      | none => rw [c3 hinv hex] at hres; cases hres
  · intro msg hmem
    by_cases hinv : v.1 = .Invalid
    · rw [c1 hinv] at hmem; simp at hmem
    · cases hex : c.exit with
      | some r =>
        rw [c2 r hinv hex] at hmem ⊢
        refine ⟨?_, hnostart⟩
        rw [hex] at r5
        rcases r5 with r5 | ⟨r5, -⟩ | r5
        · cases r5
        · exact Option.some.inj r5
        · exfalso
          have hr : r = .threw "Failed to allocate capture buffers for stream" :=
            Option.some.inj r5
          exact hnocerr (by rw [hex, hr]; simp) msg hmem
      | none =>
        exfalso
        rw [c3 hinv hex] at hmem
        simp only [finishStart, List.mem_append, List.mem_map] at hmem
        rcases hmem with (h | h) | ⟨r, -, h⟩
        · exact hnocerr (by rw [hex]; simp) msg h
        · simp at h
        · cases h
  · intro env' store'
    exact start_running_noop env' store' _ hrunning
  · intro env' store'
    exact hacq env' store' _ (stop_running _)

end Picam

namespace Picam

/-- C17 on the four failure paths of `start()` (invalid configuration, exhausted
heap, no request, buffer not accepted): the flag stays set, the camera is not
started, and a second `start()` on a working camera does nothing. -/
theorem start_failure_keeps_running_witness :
    ((start invalidEnv emptyStore idleSession).result =
        .threw "Failed to validate stream configurations" ∧
      (start invalidEnv emptyStore idleSession).state.running = true ∧
      Event.cameraStart ∉ (start invalidEnv emptyStore idleSession).trace) ∧
    ((start noMemoryEnv emptyStore idleSession).result =
        .threw "Failed to allocate capture buffers for stream" ∧
      (start noMemoryEnv emptyStore idleSession).state.running = true ∧
      Event.cameraStart ∉ (start noMemoryEnv emptyStore idleSession).trace) ∧
    ((start noRequestEnv emptyStore idleSession).result = .returned ∧
      (start noRequestEnv emptyStore idleSession).state.running = true ∧
      Event.cameraStart ∉ (start noRequestEnv emptyStore idleSession).trace) ∧
    ((start noBufferEnv emptyStore idleSession).result = .returned ∧
      (start noBufferEnv emptyStore idleSession).state.running = true ∧
      Event.cameraStart ∉ (start noBufferEnv emptyStore idleSession).trace ∧
      start sampleEnv emptyStore (start noBufferEnv emptyStore idleSession).state =
        ⟨(start noBufferEnv emptyStore idleSession).state, [], .returned⟩) :=
  have h1 := start_failure_keeps_running invalidEnv emptyStore idleSession rfl
  have h2 := start_failure_keeps_running noMemoryEnv emptyStore idleSession rfl
  have h3 := start_failure_keeps_running noRequestEnv emptyStore idleSession rfl
  have h4 := start_failure_keeps_running noBufferEnv emptyStore idleSession rfl
  have r1 : (start invalidEnv emptyStore idleSession).result =
      .threw "Failed to validate stream configurations" := by decide
  have r2 : (start noMemoryEnv emptyStore idleSession).result =
      .threw "Failed to allocate capture buffers for stream" := by decide
  have r3 : Event.cerr "Can't create request" ∈
      (start noRequestEnv emptyStore idleSession).trace := by decide
  have r4 : Event.cerr "Can't set buffer for request" ∈
      (start noBufferEnv emptyStore idleSession).trace := by decide
  ⟨⟨r1, h1.1, h1.2.1 _ r1⟩, ⟨r2, h2.1, h2.2.1 _ r2⟩,
    ⟨(h3.2.2.1 _ r3).1, h3.1, (h3.2.2.1 _ r3).2⟩,
    ⟨(h4.2.2.1 _ r4).1, h4.1, (h4.2.2.1 _ r4).2, h4.2.2.2.1 sampleEnv emptyStore⟩⟩

end Picam
